import Mathlib

/-!
Shallow embedding of the KpilexifManager repository
(`src/kpilexifmanager/baseclass.py` and `src/kpilexifmanager/pilexifmgr.py`).

Python strings are modelled as lists of Unicode scalar values
(`List Nat`), Python bytes as lists of byte values (`List Nat`),
Python dicts as association lists, Python floats as exact rationals,
and Python exceptions as the `Except PyErr` monad.
-/

/-- Python runtime exceptions relevant to this code base.  `valueError`
covers `UnicodeDecodeError` as well, which is a subclass of `ValueError`
in Python. -/
inductive PyErr where
  | keyError
  | typeError
  | indexError
  | attributeError
  | valueError
  | zeroDivisionError
  | assertionError
deriving DecidableEq

/-- A Python value as stored inside an EXIF IFD dictionary: an int, a
bytes object, a str, or a (possibly nested) tuple. -/
inductive PyVal where
  | vint (n : Int)
  | vbytes (bs : List Nat)
  | vstr (cs : List Nat)
  | vtuple (vs : List PyVal)

/-- A value of the top-level metadata dictionary: an int-keyed IFD dict
(such as the values of `Exif`, `0th`, `GPS`), a string-keyed dict (the
result of `piexif.load`, stored under the `exif` key of `img.info`), or
a raw non-dict value (other `img.info` entries). -/
inductive MetaVal where
  | ifd (d : List (Nat × PyVal))
  | sub (m : List (String × MetaVal))
  | raw (v : PyVal)

/-- First-match lookup in an association list, the read behaviour of a
Python dict whose keys are unique. -/
def alLookup {α β : Type} [DecidableEq α] : List (α × β) → α → Option β
  | [], _ => none
  | (k, v) :: rest, key => if k = key then some v else alLookup rest key

/-- Python dict assignment `d[k] = v`: replace the first binding of `k`
if present, otherwise append the new binding. -/
def alInsert {α β : Type} [DecidableEq α] : List (α × β) → α → β → List (α × β)
  | [], key, val => [(key, val)]
  | (k, v) :: rest, key, val =>
    if k = key then (key, val) :: rest else (k, v) :: alInsert rest key val

theorem alLookup_alInsert_self {α β : Type} [DecidableEq α]
    (l : List (α × β)) (k : α) (v : β) :
    alLookup (alInsert l k v) k = some v := by
  induction l with
  | nil => simp [alInsert, alLookup]
  | cons hd tl ih =>
    obtain ⟨k0, v0⟩ := hd
    by_cases h : k0 = k
    · simp [alInsert, h, alLookup]
    · simp [alInsert, h, alLookup, ih]

theorem alLookup_alInsert_ne {α β : Type} [DecidableEq α]
    (l : List (α × β)) (k k2 : α) (v : β) (h : k2 ≠ k) :
    alLookup (alInsert l k v) k2 = alLookup l k2 := by
  have hks : ¬k = k2 := fun he => h he.symm
  induction l with
  | nil => simp [alInsert, alLookup, hks]
  | cons hd tl ih =>
    obtain ⟨k0, v0⟩ := hd
    by_cases h0 : k0 = k
    · subst h0
      simp [alInsert, alLookup, hks]
    · by_cases h2 : k0 = k2
      · simp [alInsert, h0, alLookup, h2, h]
      · simp [alInsert, h0, alLookup, h2, ih]

/-- Python string: a list of Unicode scalar values. -/
abbrev PyStr := List Nat

/-- Scalar values of a Lean string literal, used to write Python string
constants of the source. -/
def chars (s : String) : List Nat := s.data.map Char.toNat

mutual

/-- Python `==` on the embedded values: numeric equality on ints,
elementwise on bytes/str/tuples, `False` across different types
(in particular `str == bytes` is `False`).  It never raises. -/
def pyEqB : PyVal → PyVal → Bool
  | .vint a, .vint b => a == b
  | .vbytes a, .vbytes b => a == b
  | .vstr a, .vstr b => a == b
  | .vtuple a, .vtuple b => pyEqListB a b
  | _, _ => false

/-- Elementwise Python `==` on tuple contents. -/
def pyEqListB : List PyVal → List PyVal → Bool
  | [], [] => true
  | a :: as_, b :: bs => pyEqB a b && pyEqListB as_ bs
  | _, _ => false

end

/-- Python subscription `v[i]` for a non-negative index: defined on
tuples, bytes (yielding an int) and str, a `TypeError` on ints. -/
def pyIndex : PyVal → Nat → Except PyErr PyVal
  | .vtuple vs, i => if h : i < vs.length then .ok (vs.get ⟨i, h⟩) else .error .indexError
  | .vbytes bs, i => if h : i < bs.length then .ok (.vint (bs.get ⟨i, h⟩)) else .error .indexError
  | .vstr cs, i => if h : i < cs.length then .ok (.vstr [cs.get ⟨i, h⟩]) else .error .indexError
  | .vint _, _ => .error .typeError

/-- Python true division `a / b` of two embedded values, exact: the
result is a rational.  Only int/int is needed by this code base. -/
def pyDiv : PyVal → PyVal → Except PyErr ℚ
  | .vint a, .vint b =>
    if b = 0 then .error .zeroDivisionError else .ok ((a : ℚ) / (b : ℚ))
  | _, _ => .error .typeError

/-- Python `int(q)` on a float: truncation toward zero. -/
def pytrunc (q : ℚ) : Int := if q < 0 then -(⌊-q⌋) else ⌊q⌋

/-- Conversion applied elementwise by `bytes(tuple_of_ints)`. -/
def bytesOfList : List PyVal → Except PyErr (List Nat)
  | [] => .ok []
  | .vint n :: rest =>
    if 0 ≤ n ∧ n < 256 then (bytesOfList rest).map (n.toNat :: ·)
    else .error .valueError
  | _ :: _ => .error .typeError

/-- Python `bytes(v)`: identity on bytes, elementwise on a tuple of
small ints, `n` zero bytes for an int `n ≥ 0`, `TypeError` on str. -/
def pyBytesOf : PyVal → Except PyErr (List Nat)
  | .vbytes bs => .ok bs
  | .vtuple vs => bytesOfList vs
  | .vint n => if n < 0 then .error .valueError else .ok (List.replicate n.toNat 0)
  | .vstr _ => .error .typeError

/-- ASCII `str.upper()` (sufficient for the file-extension strings the
source applies it to). -/
def upperAscii (cs : List Nat) : List Nat :=
  cs.map (fun c => if 0x61 ≤ c ∧ c ≤ 0x7A then c - 32 else c)

/-- `pathlib.PurePath.suffix`: the part of the name from the last dot
on, when that dot is neither the first nor the last character,
otherwise the empty string. -/
def pathSuffix (cs : List Nat) : List Nat :=
  match ((List.range cs.length).filter (fun i => cs.getD i 0 = 0x2E)).getLast? with
  | some i => if 0 < i ∧ i < cs.length - 1 then cs.drop i else []
  | none => []

/-- Python `s.split(sep)` for a one-character separator (so
`"".split(sep) = [""]`). -/
def splitOnChar (sep : Nat) (l : List Nat) : List (List Nat) := l.splitOn sep

/-- Python `sep.join(parts)` for a one-character separator. -/
def joinWithChar (sep : Nat) (parts : List (List Nat)) : List Nat :=
  List.intercalate [sep] parts

/-- Python `s.split("\x00", maxsplit=1)[0]`: the prefix before the
first NUL. -/
def takeUntilNul (cs : List Nat) : List Nat := cs.takeWhile (fun c => c ≠ 0)

/-- Splitting is a left inverse of joining for a non-empty list of
separator-free fragments. -/
theorem splitOnChar_joinWithChar (sep : Nat) (kws : List (List Nat))
    (hne : kws ≠ []) (hfree : ∀ kw ∈ kws, sep ∉ kw) :
    splitOnChar sep (joinWithChar sep kws) = kws :=
  List.splitOn_intercalate kws sep hfree hne

theorem takeUntilNul_of_no_nul (cs : List Nat) (h : 0 ∉ cs) : takeUntilNul cs = cs := by
  induction cs with
  | nil => rfl
  | cons c rest ih =>
    have hc : c ≠ 0 := fun he => h (he ▸ List.mem_cons_self c rest)
    have hr : 0 ∉ rest := fun hm => h (List.mem_cons_of_mem c hm)
    simp [takeUntilNul, hc] at ih ⊢
    exact ih hr

/-- A Unicode scalar value: any code point except the surrogate range.
Python strings produced by decoding, and Lean strings, contain only
scalar values. -/
def ScalarOk (c : Nat) : Prop := c < 0xD800 ∨ (0xE000 ≤ c ∧ c < 0x110000)

instance (c : Nat) : Decidable (ScalarOk c) := by unfold ScalarOk; infer_instance

/-- UTF-16LE bytes of one scalar value (surrogate pair above U+FFFF). -/
def utf16EncodeChar (c : Nat) : List Nat :=
  if c < 0x10000 then [c % 256, c / 256]
  else
    let u := c - 0x10000
    let hi := 0xD800 + u / 0x400
    let lo := 0xDC00 + u % 0x400
    [hi % 256, hi / 256, lo % 256, lo / 256]

/-- Python `s.encode("utf-16")`: a little-endian byte-order mark
followed by the UTF-16LE code units of the string. -/
def pyEncodeUtf16 (cs : List Nat) : List Nat :=
  0xFF :: 0xFE :: (cs.map utf16EncodeChar).flatten

/-- Pair bytes into little-endian 16-bit code units; fails on a
truncated (odd-length) input. -/
def utf16UnitsLE : List Nat → Option (List Nat)
  | [] => some []
  | [_] => none
  | b0 :: b1 :: rest => (utf16UnitsLE rest).map ((b0 + 256 * b1) :: ·)

/-- Pair bytes into big-endian 16-bit code units. -/
def utf16UnitsBE : List Nat → Option (List Nat)
  | [] => some []
  | [_] => none
  | b0 :: b1 :: rest => (utf16UnitsBE rest).map ((256 * b0 + b1) :: ·)

/-- Decode a list of UTF-16 code units, combining surrogate pairs and
failing on unpaired surrogates. -/
def utf16ParseUnits : List Nat → Option (List Nat)
  | [] => some []
  | u :: rest =>
    if u < 0xD800 ∨ 0xE000 ≤ u then (utf16ParseUnits rest).map (u :: ·)
    else if u < 0xDC00 then
      match rest with
      | [] => none
      | v :: rest2 =>
        if 0xDC00 ≤ v ∧ v < 0xE000 then
          (utf16ParseUnits rest2).map
            ((0x10000 + (u - 0xD800) * 0x400 + (v - 0xDC00)) :: ·)
        else none
    else none

/-- Python `bs.decode("utf-16")`: honour a byte-order mark when
present, default to little-endian otherwise. -/
def pyDecodeUtf16 (bs : List Nat) : Option (List Nat) :=
  match bs with
  | 0xFF :: 0xFE :: rest => (utf16UnitsLE rest).bind utf16ParseUnits
  | 0xFE :: 0xFF :: rest => (utf16UnitsBE rest).bind utf16ParseUnits
  | _ => (utf16UnitsLE bs).bind utf16ParseUnits

/-- One scalar value as UTF-16 code units. -/
def utf16UnitsOfChar (c : Nat) : List Nat :=
  if c < 0x10000 then [c]
  else [0xD800 + (c - 0x10000) / 0x400, 0xDC00 + (c - 0x10000) % 0x400]

theorem utf16UnitsLE_encode (cs : List Nat) :
    utf16UnitsLE ((cs.map utf16EncodeChar).flatten) =
      some ((cs.map utf16UnitsOfChar).flatten) := by
  induction cs with
  | nil => rfl
  | cons c rest ih =>
    by_cases h : c < 0x10000
    · have h1 : c % 256 + 256 * (c / 256) = c := Nat.mod_add_div c 256
      simp [utf16EncodeChar, utf16UnitsOfChar, h, utf16UnitsLE, ih, h1]
    · have e1 : (0xD800 + (c - 0x10000) / 0x400) % 256 +
          256 * ((0xD800 + (c - 0x10000) / 0x400) / 256) =
          0xD800 + (c - 0x10000) / 0x400 :=
        Nat.mod_add_div _ 256
      have e2 : (0xDC00 + (c - 0x10000) % 0x400) % 256 +
          256 * ((0xDC00 + (c - 0x10000) % 0x400) / 256) =
          0xDC00 + (c - 0x10000) % 0x400 :=
        Nat.mod_add_div _ 256
      simp only [utf16EncodeChar, utf16UnitsOfChar, h, if_false,
        List.map_cons, List.flatten_cons, List.cons_append, List.nil_append,
        utf16UnitsLE, ih, Option.map_some, e1, e2]
      rfl

theorem utf16ParseUnits_cons_scalar (u : Nat) (l : List Nat)
    (hu : u < 0xD800 ∨ 0xE000 ≤ u) :
    utf16ParseUnits (u :: l) = (utf16ParseUnits l).map (u :: ·) := by
  rw [utf16ParseUnits.eq_def]
  simp only []
  rw [if_pos hu]

theorem utf16ParseUnits_cons_pair (u v : Nat) (l : List Nat)
    (hu : ¬(u < 0xD800 ∨ 0xE000 ≤ u)) (hu2 : u < 0xDC00)
    (hv : 0xDC00 ≤ v ∧ v < 0xE000) :
    utf16ParseUnits (u :: v :: l) =
      (utf16ParseUnits l).map ((0x10000 + (u - 0xD800) * 0x400 + (v - 0xDC00)) :: ·) := by
  rw [utf16ParseUnits.eq_def]
  simp only []
  rw [if_neg hu, if_pos hu2, if_pos hv]

theorem utf16ParseUnits_encode (cs : List Nat) (hok : ∀ c ∈ cs, ScalarOk c) :
    utf16ParseUnits ((cs.map utf16UnitsOfChar).flatten) = some cs := by
  induction cs with
  | nil => rfl
  | cons c rest ih =>
    have hc : ScalarOk c := hok c (List.mem_cons_self c rest)
    have hrest : ∀ x ∈ rest, ScalarOk x := fun x hx => hok x (List.mem_cons_of_mem c hx)
    by_cases h : c < 0x10000
    · have hbranch : c < 0xD800 ∨ 0xE000 ≤ c := by
        rcases hc with h1 | ⟨h1, _⟩
        · exact Or.inl h1
        · exact Or.inr h1
      have hflat : ((c :: rest).map utf16UnitsOfChar).flatten =
          c :: (rest.map utf16UnitsOfChar).flatten := by
        simp [utf16UnitsOfChar, h]
      rw [hflat, utf16ParseUnits_cons_scalar c _ hbranch, ih hrest]
      rfl
    · have hlt : c < 0x110000 := by
        rcases hc with h1 | ⟨_, h2⟩
        · omega
        · exact h2
      have hhi1 : ¬(0xD800 + (c - 0x10000) / 0x400 < 0xD800 ∨
          0xE000 ≤ 0xD800 + (c - 0x10000) / 0x400) := by omega
      have hhi2 : 0xD800 + (c - 0x10000) / 0x400 < 0xDC00 := by omega
      have hlo : 0xDC00 ≤ 0xDC00 + (c - 0x10000) % 0x400 ∧
          0xDC00 + (c - 0x10000) % 0x400 < 0xE000 := by omega
      have hval : 0x10000 + (0xD800 + (c - 0x10000) / 0x400 - 0xD800) * 0x400 +
          (0xDC00 + (c - 0x10000) % 0x400 - 0xDC00) = c := by omega
      have hflat : ((c :: rest).map utf16UnitsOfChar).flatten =
          (0xD800 + (c - 0x10000) / 0x400) :: (0xDC00 + (c - 0x10000) % 0x400) ::
            (rest.map utf16UnitsOfChar).flatten := by
        simp [utf16UnitsOfChar, h]
      rw [hflat, utf16ParseUnits_cons_pair _ _ _ hhi1 hhi2 hlo, ih hrest, hval]
      rfl

/-- Decoding is a left inverse of encoding for UTF-16 over scalar
values, as used by the keyword tags. -/
theorem pyDecodeUtf16_pyEncodeUtf16 (cs : List Nat) (hok : ∀ c ∈ cs, ScalarOk c) :
    pyDecodeUtf16 (pyEncodeUtf16 cs) = some cs := by
  show (utf16UnitsLE ((cs.map utf16EncodeChar).flatten)).bind utf16ParseUnits = some cs
  rw [utf16UnitsLE_encode]
  exact utf16ParseUnits_encode cs hok

/-- UTF-8 bytes of one scalar value. -/
def utf8EncodeChar (c : Nat) : List Nat :=
  if c < 0x80 then [c]
  else if c < 0x800 then [0xC0 + c / 0x40, 0x80 + c % 0x40]
  else if c < 0x10000 then
    [0xE0 + c / 0x1000, 0x80 + (c / 0x40) % 0x40, 0x80 + c % 0x40]
  else
    [0xF0 + c / 0x40000, 0x80 + (c / 0x1000) % 0x40,
     0x80 + (c / 0x40) % 0x40, 0x80 + c % 0x40]

/-- Python `s.encode("utf-8")`. -/
def pyEncodeUtf8 (cs : List Nat) : List Nat := (cs.map utf8EncodeChar).flatten

/-- Python `bs.decode("utf-8")` in strict mode: rejects truncated
sequences, stray continuation bytes, overlong forms, surrogates and
code points above U+10FFFF. -/
def pyDecodeUtf8 : List Nat → Option (List Nat)
  | [] => some []
  | b :: rest =>
    if b < 0x80 then (pyDecodeUtf8 rest).map (b :: ·)
    else if b < 0xC2 then none
    else if b < 0xE0 then
      match rest with
      | c1 :: rest1 =>
        if 0x80 ≤ c1 ∧ c1 < 0xC0 then
          (pyDecodeUtf8 rest1).map (((b - 0xC0) * 0x40 + (c1 - 0x80)) :: ·)
        else none
      | [] => none
    else if b < 0xF0 then
      match rest with
      | c1 :: c2 :: rest2 =>
        if (0x80 ≤ c1 ∧ c1 < 0xC0) ∧ (0x80 ≤ c2 ∧ c2 < 0xC0) then
          let c := (b - 0xE0) * 0x1000 + (c1 - 0x80) * 0x40 + (c2 - 0x80)
          if 0x800 ≤ c ∧ (c < 0xD800 ∨ 0xE000 ≤ c) then
            (pyDecodeUtf8 rest2).map (c :: ·)
          else none
        else none
      | _ => none
    else if b < 0xF5 then
      match rest with
      | c1 :: c2 :: c3 :: rest3 =>
        if (0x80 ≤ c1 ∧ c1 < 0xC0) ∧ (0x80 ≤ c2 ∧ c2 < 0xC0) ∧
            (0x80 ≤ c3 ∧ c3 < 0xC0) then
          let c := (b - 0xF0) * 0x40000 + (c1 - 0x80) * 0x1000 +
            (c2 - 0x80) * 0x40 + (c3 - 0x80)
          if 0x10000 ≤ c ∧ c < 0x110000 then
            (pyDecodeUtf8 rest3).map (c :: ·)
          else none
        else none
      | _ => none
    else none

/-- A `datetime.datetime` value restricted to the fields this code base
reads and writes. -/
structure PyDateTime where
  year : Nat
  month : Nat
  day : Nat
  hour : Nat
  minute : Nat
  second : Nat
deriving DecidableEq

/-- `datetime.datetime(1, 1, 1)`, the sentinel returned for an invalid
date string. -/
def dtSentinel : PyDateTime := ⟨1, 1, 1, 0, 0, 0⟩

/-- Gregorian leap-year rule used by `datetime`. -/
def isLeapYear (y : Nat) : Bool :=
  (y % 4 = 0 && y % 100 ≠ 0) || y % 400 = 0

/-- Number of days of a month, as `datetime` validates `day`. -/
def daysInMonth (y m : Nat) : Nat :=
  if m = 2 then (if isLeapYear y then 29 else 28)
  else if m = 4 ∨ m = 6 ∨ m = 9 ∨ m = 11 then 30
  else 31

/-- Validity check of the `datetime.datetime` constructor; out-of-range
fields raise `ValueError`. -/
def mkPyDateTime (y mo d h mi s : Nat) : Option PyDateTime :=
  if 1 ≤ y ∧ y ≤ 9999 ∧ 1 ≤ mo ∧ mo ≤ 12 ∧ 1 ≤ d ∧ d ≤ daysInMonth y mo ∧
      h < 24 ∧ mi < 60 ∧ s < 60 then
    some ⟨y, mo, d, h, mi, s⟩
  else none

/-- Python `int(s)` restricted to plain decimal digit strings. -/
def parseDigits (cs : List Nat) : Option Nat :=
  if cs ≠ [] ∧ ∀ c ∈ cs, 0x30 ≤ c ∧ c ≤ 0x39 then
    some (cs.foldl (fun acc c => acc * 10 + (c - 0x30)) 0)
  else none

/-- Modelled from the spec: `convert.str2datetime` of the external
`kjmarotools.basics` package (not under `src/`), called as
`str2datetime(s, ":", " ", ":")`.  Per the spec it parses a
`YYYY:MM:DD HH:MM:SS` string into a datetime, raising `ValueError`
(here `none`) for strings that do not parse as such a datetime. -/
def str2datetime (s : PyStr) : Option PyDateTime :=
  match splitOnChar 0x20 s with
  | [d, t] =>
    match splitOnChar 0x3A d, splitOnChar 0x3A t with
    | [ys, mos, ds], [hs, mis, ss] =>
      match parseDigits ys, parseDigits mos, parseDigits ds,
          parseDigits hs, parseDigits mis, parseDigits ss with
      | some y, some mo, some da, some h, some mi, some se =>
        mkPyDateTime y mo da h mi se
      | _, _, _, _, _, _ => none
    | _, _ => none
  | _ => none

/-- Decimal digits of a natural number, zero-padded to a width. -/
def padNum (width n : Nat) : List Nat :=
  let rec go : Nat → Nat → List Nat
    | 0, _ => []
    | w + 1, m => go w (m / 10) ++ [0x30 + m % 10]
  go width n

/-- Modelled from the spec: `convert.datetime2str` of the external
`kjmarotools.basics` package, called as
`datetime2str(dt, ":", " ", ":")`: formats a datetime back into a
`YYYY:MM:DD HH:MM:SS` string. -/
def datetime2str (dt : PyDateTime) : PyStr :=
  padNum 4 dt.year ++ [0x3A] ++ padNum 2 dt.month ++ [0x3A] ++ padNum 2 dt.day ++
    [0x20] ++ padNum 2 dt.hour ++ [0x3A] ++ padNum 2 dt.minute ++ [0x3A] ++
    padNum 2 dt.second

/-- Modelled from the spec: `convert.dms_zone2deg` of the external
`kjmarotools.basics` package: converts degrees, minutes, seconds with a
hemisphere flag to signed decimal degrees (positive hemisphere gives
the positive sign). -/
def dms_zone2deg (degs mins secs : ℚ) (zone_positive : Bool) : ℚ :=
  (if zone_positive then 1 else -1) * (degs + mins / 60 + secs / 3600)

/-- Modelled from the spec: `convert.deg2dms_zone` of the external
`kjmarotools.basics` package: converts signed decimal degrees to
non-negative degrees, minutes, seconds and the hemisphere string chosen
from the given pair (first entry for non-negative values). -/
def deg2dms_zone (v : ℚ) (zpos zneg : PyStr) : Int × Int × ℚ × PyStr :=
  let a := |v|
  let d := ⌊a⌋
  let m := ⌊(a - d) * 60⌋
  let s := (a - d - m / 60) * 3600
  (d, m, s, if 0 ≤ v then zpos else zneg)

/-- The DMS decomposition recombines exactly to the absolute value. -/
theorem deg2dms_zone_recombine (v : ℚ) (zpos zneg : PyStr) :
    ((deg2dms_zone v zpos zneg).1 : ℚ) + (deg2dms_zone v zpos zneg).2.1 / 60 +
      (deg2dms_zone v zpos zneg).2.2.1 / 3600 = |v| := by
  simp only [deg2dms_zone]
  ring

namespace piexif

namespace ImageIFD

def ImageDescription : Nat := 270

def Make : Nat := 271

def Model : Nat := 272

def Orientation : Nat := 274

def Software : Nat := 305

def Artist : Nat := 315

def Copyright : Nat := 33432

def XPKeywords : Nat := 40094

end ImageIFD

namespace ExifIFD

def ExifVersion : Nat := 36864

def DateTimeOriginal : Nat := 36867

def DateTimeDigitized : Nat := 36868

def SubSecTimeOriginal : Nat := 37521

def SubSecTimeDigitized : Nat := 37522

end ExifIFD

namespace GPSIFD

def GPSVersionID : Nat := 0

def GPSLatitudeRef : Nat := 1

def GPSLatitude : Nat := 2

def GPSLongitudeRef : Nat := 3

def GPSLongitude : Nat := 4

def GPSAltitudeRef : Nat := 5

def GPSAltitude : Nat := 6

end GPSIFD

end piexif

/-- The state of a `PilExifManager` instance: the metadata dict, the
loaded file path (of which only the file name matters here) and the
`_temporal_keywords` list. -/
structure PilExifManager where
  metadata : List (String × MetaVal)
  filepath : Option PyStr
  temporal_keywords : List PyStr

/-- `EDITABLE_EXTENSIONS = "JPG", "JPEG"`. -/
def EDITABLE_EXTENSIONS : List PyStr := [chars "JPG", chars "JPEG"]

/-- `READABLE_EXTENSIONS = EDITABLE_EXTENSIONS + ("PNG", )`. -/
def READABLE_EXTENSIONS : List PyStr := EDITABLE_EXTENSIONS ++ [chars "PNG"]

/-- `PilExifManager.__init__`: empty metadata, no loaded file, empty
temporal keywords. -/
def initManager : PilExifManager := ⟨[], none, []⟩

/-- Read `self.metadata[key]` expecting a dict: `KeyError` when the key
is absent, a non-`KeyError` failure when the stored value is not a
dict (Python raises `TypeError` or `ValueError` when such a value is
subscripted or tested for int membership). -/
def getIfd (meta : List (String × MetaVal)) (key : String) :
    Except PyErr (List (Nat × PyVal)) :=
  match alLookup meta key with
  | some (.ifd d) => .ok d
  | some _ => .error .typeError
  | none => .error .keyError

/-- Read `self.metadata[key][tag]`. -/
def ifdGet (meta : List (String × MetaVal)) (key : String) (tag : Nat) :
    Except PyErr PyVal := do
  let d ← getIfd meta key
  match alLookup d tag with
  | some v => .ok v
  | none => .error .keyError

/-- A sequence of assignments `self.metadata[key][tag] = val`: fails
before any change when `key` is absent or not bound to a dict. -/
def setTags (meta : List (String × MetaVal)) (key : String)
    (assigns : List (Nat × PyVal)) : Except PyErr (List (String × MetaVal)) := do
  let d ← getIfd meta key
  .ok (alInsert meta key (.ifd (assigns.foldl (fun acc kv => alInsert acc kv.1 kv.2) d)))

/-- `PrivateTools._load_exif_data` (with `add_basic_keywords=True`, the
only way the manager calls it), applied to the dict produced by
`_load_metadata`: start from the `exif` sub-dict if any, merge every
other top-level entry over it, then add each of the four basic keys
that is still missing, bound to an empty dict. -/
def load_exif_data (data_dict : List (String × MetaVal)) :
    Except PyErr (List (String × MetaVal)) := do
  let exif_dict ←
    match alLookup data_dict "exif" with
    | some (.sub m2) => Except.ok m2
    | some _ => Except.error PyErr.typeError
    | none => Except.ok []
  let merged := (data_dict.filter (fun kv => kv.1 ≠ "exif")).foldl
    (fun acc kv => alInsert acc kv.1 kv.2) exif_dict
  let withDefaults := ["Exif", "0th", "1st", "GPS"].foldl
    (fun acc kwd => if (alLookup acc kwd).isSome then acc else alInsert acc kwd (.ifd []))
    merged
  .ok withDefaults

/-- `PilExifManager.load_file`: assert the readable extension, then
reset `_temporal_keywords`, record the path and load the metadata.
`data_dict` stands for the dict the external imaging and EXIF
libraries produce from the file in `_load_metadata`. -/
def load_file (m : PilExifManager) (file : PyStr)
    (data_dict : List (String × MetaVal)) : Except PyErr PilExifManager := do
  if upperAscii ((pathSuffix file).drop 1) ∈ READABLE_EXTENSIONS then
    let meta ← load_exif_data data_dict
    .ok { metadata := meta, filepath := some file, temporal_keywords := [] }
  else .error .assertionError

/-- The state-relevant prefix of `PilExifManager.save_file`: the two
assertions, exactly as written in the source (`assert self._filepath is
not None` and `assert sfx not in self.EDITABLE_EXTENSIONS`); the
actual writing is delegated to the EXIF library and does not change
the manager state. -/
def save_file (m : PilExifManager) : Except PyErr Unit :=
  match m.filepath with
  | none => .error .assertionError
  | some fp =>
    if upperAscii ((pathSuffix fp).drop 1) ∈ EDITABLE_EXTENSIONS then
      .error .assertionError
    else .ok ()

/-- `PilExifManager.clear_metadata`. -/
def clear_metadata (m : PilExifManager) : PilExifManager :=
  { m with metadata := [] }

/-- `PilExifManager.get_date_original`: read the tag (KeyError outside
the `try` block when absent), decode as UTF-8 and parse; `ValueError`
(including `UnicodeDecodeError`, its subclass) yields the
`datetime(1, 1, 1)` sentinel. -/
def get_date_original (m : PilExifManager) : Except PyErr PyDateTime := do
  let v ← ifdGet m.metadata "Exif" piexif.ExifIFD.DateTimeOriginal
  match v with
  | .vbytes bs =>
    match pyDecodeUtf8 bs with
    | some s =>
      match str2datetime s with
      | some dt => .ok dt
      | none => .ok dtSentinel
    | none => .ok dtSentinel
  | _ => .error .attributeError

/-- `PilExifManager.get_date_digitized`, same shape as
`get_date_original`. -/
def get_date_digitized (m : PilExifManager) : Except PyErr PyDateTime := do
  let v ← ifdGet m.metadata "Exif" piexif.ExifIFD.DateTimeDigitized
  match v with
  | .vbytes bs =>
    match pyDecodeUtf8 bs with
    | some s =>
      match str2datetime s with
      | some dt => .ok dt
      | none => .ok dtSentinel
    | none => .ok dtSentinel
  | _ => .error .attributeError

/-- `PilExifManager.has_date_original`:
`piexif.ExifIFD.DateTimeOriginal in self.metadata['Exif']`. -/
def has_date_original (m : PilExifManager) : Except PyErr Bool := do
  let d ← getIfd m.metadata "Exif"
  .ok (alLookup d piexif.ExifIFD.DateTimeOriginal).isSome

/-- `PilExifManager.has_date_digitized`. -/
def has_date_digitized (m : PilExifManager) : Except PyErr Bool := do
  let d ← getIfd m.metadata "Exif"
  .ok (alLookup d piexif.ExifIFD.DateTimeDigitized).isSome

/-- `PilExifManager.has_valid_date_original`. -/
def has_valid_date_original (m : PilExifManager) : Except PyErr Bool := do
  let h ← has_date_original m
  if h then do
    let dt ← get_date_original m
    .ok (decide (dt.year ≠ 1))
  else .ok false

/-- `PilExifManager.has_valid_date_digitized`. -/
def has_valid_date_digitized (m : PilExifManager) : Except PyErr Bool := do
  let h ← has_date_digitized m
  if h then do
    let dt ← get_date_digitized m
    .ok (decide (dt.year ≠ 1))
  else .ok false

/-- `PrivateTools._gps2val`: three numerator/denominator pairs to a
signed decimal degree value. -/
def gps2val (t : PyVal) (zone_positive : Bool) : Except PyErr ℚ := do
  let d0 ← pyIndex t 0
  let d00 ← pyIndex d0 0
  let d01 ← pyIndex d0 1
  let degs ← pyDiv d00 d01
  let m0 ← pyIndex t 1
  let m00 ← pyIndex m0 0
  let m01 ← pyIndex m0 1
  let mins ← pyDiv m00 m01
  let s0 ← pyIndex t 2
  let s00 ← pyIndex s0 0
  let s01 ← pyIndex s0 1
  let secs ← pyDiv s00 s01
  .ok (dms_zone2deg degs mins secs zone_positive)

/-- `PilExifManager.get_gps_data`, in the evaluation order of the
source: latitude tags, latitude conversion, longitude tags, longitude
conversion, altitude tags, altitude division. -/
def get_gps_data (m : PilExifManager) : Except PyErr (ℚ × ℚ × ℚ × Bool) := do
  let latv ← ifdGet m.metadata "GPS" piexif.GPSIFD.GPSLatitude
  let latref ← ifdGet m.metadata "GPS" piexif.GPSIFD.GPSLatitudeRef
  let lat ← gps2val latv (pyEqB latref (.vbytes (chars "N")))
  let lonv ← ifdGet m.metadata "GPS" piexif.GPSIFD.GPSLongitude
  let lonref ← ifdGet m.metadata "GPS" piexif.GPSIFD.GPSLongitudeRef
  let lon ← gps2val lonv (pyEqB lonref (.vbytes (chars "E")))
  let altv ← ifdGet m.metadata "GPS" piexif.GPSIFD.GPSAltitude
  let altref ← ifdGet m.metadata "GPS" piexif.GPSIFD.GPSAltitudeRef
  let a0 ← pyIndex altv 0
  let a1 ← pyIndex altv 1
  let alt ← pyDiv a0 a1
  .ok (lat, lon, alt, pyEqB altref (.vint 1))

/-- `PilExifManager.has_gps_data`: call `get_gps_data`, catching only
`KeyError`; any other exception propagates. -/
def has_gps_data (m : PilExifManager) : Except PyErr Bool :=
  match get_gps_data m with
  | .ok _ => .ok true
  | .error .keyError => .ok false
  | .error e => .error e

/-- `PilExifManager.get_keywords`: absent dict or tag give `[]`;
otherwise convert to bytes, decode as UTF-16, cut at the first NUL and
split on semicolons. -/
def get_keywords (m : PilExifManager) : Except PyErr (List PyStr) :=
  match alLookup m.metadata "0th" with
  | some (.ifd d) =>
    match alLookup d piexif.ImageIFD.XPKeywords with
    | some v => do
      let bs ← pyBytesOf v
      match pyDecodeUtf16 bs with
      | some s => .ok (splitOnChar 0x3B (takeUntilNul s))
      | none => .error .valueError
    | none => .ok []
  | some _ => .error .typeError
  | none => .ok []

/-- `PilExifManager.get_camera_maker`: the raw stored value, or the
empty string when the dict or the tag is absent. -/
def get_camera_maker (m : PilExifManager) : Except PyErr PyVal :=
  match alLookup m.metadata "0th" with
  | some (.ifd d) =>
    match alLookup d piexif.ImageIFD.Make with
    | some v => .ok v
    | none => .ok (.vstr [])
  | some _ => .error .typeError
  | none => .ok (.vstr [])

/-- `PilExifManager.get_camera_model`. -/
def get_camera_model (m : PilExifManager) : Except PyErr PyVal :=
  match alLookup m.metadata "0th" with
  | some (.ifd d) =>
    match alLookup d piexif.ImageIFD.Model with
    | some v => .ok v
    | none => .ok (.vstr [])
  | some _ => .error .typeError
  | none => .ok (.vstr [])

/-- `PilExifManager.get_description`. -/
def get_description (m : PilExifManager) : Except PyErr PyVal :=
  match alLookup m.metadata "0th" with
  | some (.ifd d) =>
    match alLookup d piexif.ImageIFD.ImageDescription with
    | some v => .ok v
    | none => .ok (.vstr [])
  | some _ => .error .typeError
  | none => .ok (.vstr [])

/-- `PilExifManager.get_copyright`. -/
def get_copyright (m : PilExifManager) : Except PyErr PyVal :=
  match alLookup m.metadata "0th" with
  | some (.ifd d) =>
    match alLookup d piexif.ImageIFD.Copyright with
    | some v => .ok v
    | none => .ok (.vstr [])
  | some _ => .error .typeError
  | none => .ok (.vstr [])

/-- `PilExifManager.set_date_original`. -/
def set_date_original (m : PilExifManager) (dt : PyDateTime) :
    Except PyErr PilExifManager := do
  let meta ← setTags m.metadata "Exif"
    [(piexif.ExifIFD.SubSecTimeOriginal, .vbytes (chars "00")),
     (piexif.ExifIFD.DateTimeOriginal, .vbytes (pyEncodeUtf8 (datetime2str dt)))]
  .ok { m with metadata := meta }

/-- `PilExifManager.set_date_digitized`. -/
def set_date_digitized (m : PilExifManager) (dt : PyDateTime) :
    Except PyErr PilExifManager := do
  let meta ← setTags m.metadata "Exif"
    [(piexif.ExifIFD.SubSecTimeDigitized, .vbytes (chars "00")),
     (piexif.ExifIFD.DateTimeDigitized, .vbytes (pyEncodeUtf8 (datetime2str dt)))]
  .ok { m with metadata := meta }

/-- `PilExifManager.set_artist`. -/
def set_artist (m : PilExifManager) (artist : PyStr) :
    Except PyErr PilExifManager := do
  let meta ← setTags m.metadata "0th"
    [(piexif.ImageIFD.Artist, .vbytes (pyEncodeUtf8 artist))]
  .ok { m with metadata := meta }

/-- `PilExifManager.set_camera_maker`. -/
def set_camera_maker (m : PilExifManager) (camera_maker : PyStr) :
    Except PyErr PilExifManager := do
  let meta ← setTags m.metadata "0th"
    [(piexif.ImageIFD.Make, .vbytes (pyEncodeUtf8 camera_maker))]
  .ok { m with metadata := meta }

/-- `PilExifManager.set_camera_model`. -/
def set_camera_model (m : PilExifManager) (camera_model : PyStr) :
    Except PyErr PilExifManager := do
  let meta ← setTags m.metadata "0th"
    [(piexif.ImageIFD.Model, .vbytes (pyEncodeUtf8 camera_model))]
  .ok { m with metadata := meta }

/-- `PilExifManager.set_copyright`. -/
def set_copyright (m : PilExifManager) (img_copyright : PyStr) :
    Except PyErr PilExifManager := do
  let meta ← setTags m.metadata "0th"
    [(piexif.ImageIFD.Copyright, .vbytes (pyEncodeUtf8 img_copyright))]
  .ok { m with metadata := meta }

/-- `PilExifManager.set_exif_version` (the source default is
`"0220"`). -/
def set_exif_version (m : PilExifManager) (version : PyStr) :
    Except PyErr PilExifManager := do
  let meta ← setTags m.metadata "Exif"
    [(piexif.ExifIFD.ExifVersion, .vbytes (pyEncodeUtf8 version))]
  .ok { m with metadata := meta }

/-- `PilExifManager.set_software`. -/
def set_software (m : PilExifManager) (software : PyStr) :
    Except PyErr PilExifManager := do
  let meta ← setTags m.metadata "0th"
    [(piexif.ImageIFD.Software, .vbytes (pyEncodeUtf8 software))]
  .ok { m with metadata := meta }

/-- `PilExifManager.set_orientation`. -/
def set_orientation (m : PilExifManager) (orientation : Int) :
    Except PyErr PilExifManager := do
  let meta ← setTags m.metadata "0th"
    [(piexif.ImageIFD.Orientation, .vint orientation)]
  .ok { m with metadata := meta }

/-- The tag assignments performed by `PilExifManager.set_gps_data`, in
the assignment order of the source: the version tag, the altitude
reference flag, the hemisphere strings exactly as `deg2dms_zone`
returns them (Python `str`, not `bytes`), then degrees and minutes
over 1 and hundredths of seconds over 100 for each coordinate, and
the altitude in hundredths over 100. -/
def gpsDmsVal (dmsz : Int × Int × ℚ × PyStr) : PyVal :=
  .vtuple [.vtuple [.vint dmsz.1, .vint 1],
    .vtuple [.vint dmsz.2.1, .vint 1],
    .vtuple [.vint (pytrunc (dmsz.2.2.1 * 100)), .vint 100]]

def gpsAssigns (lat lon alt : ℚ) (mean_sea_level : Bool) : List (Nat × PyVal) :=
  let lat_dmsz := deg2dms_zone lat (chars "N") (chars "S")
  let lon_dmsz := deg2dms_zone lon (chars "E") (chars "W")
  [(piexif.GPSIFD.GPSVersionID, .vtuple [.vint 2, .vint 2, .vint 0, .vint 0]),
   (piexif.GPSIFD.GPSAltitudeRef, .vint (if mean_sea_level then 1 else 0)),
   (piexif.GPSIFD.GPSLatitudeRef, .vstr lat_dmsz.2.2.2),
   (piexif.GPSIFD.GPSLongitudeRef, .vstr lon_dmsz.2.2.2),
   (piexif.GPSIFD.GPSLatitude, gpsDmsVal lat_dmsz),
   (piexif.GPSIFD.GPSLongitude, gpsDmsVal lon_dmsz),
   (piexif.GPSIFD.GPSAltitude, .vtuple [.vint (pytrunc (alt * 100)), .vint 100])]

/-- `PilExifManager.set_gps_data`: perform the assignments of
`gpsAssigns` on `self.metadata['GPS']`. -/
def set_gps_data (m : PilExifManager) (lat lon alt : ℚ) (mean_sea_level : Bool) :
    Except PyErr PilExifManager := do
  let meta ← setTags m.metadata "GPS" (gpsAssigns lat lon alt mean_sea_level)
  .ok { m with metadata := meta }

/-- `PilExifManager.add_keywords`: join (after filtering against
`_temporal_keywords` unless overwriting), encode as UTF-16 and store
under `XPKeywords`. -/
def add_keywords (m : PilExifManager) (keywords : List PyStr) (overwrite : Bool) :
    Except PyErr PilExifManager := do
  let new_keywords :=
    if !overwrite then
      let new_keys2add := keywords.filter (fun kwd => kwd ∉ m.temporal_keywords)
      joinWithChar 0x3B (m.temporal_keywords ++ new_keys2add)
    else joinWithChar 0x3B keywords
  let meta ← setTags m.metadata "0th"
    [(piexif.ImageIFD.XPKeywords, .vbytes (pyEncodeUtf16 new_keywords))]
  .ok { m with metadata := meta }

/-- One successful public mutating operation of the manager. -/
inductive Step : PilExifManager → PilExifManager → Prop where
  | load {m m2 : PilExifManager} (file : PyStr) (dd : List (String × MetaVal)) :
      load_file m file dd = .ok m2 → Step m m2
  | clear {m : PilExifManager} : Step m (clear_metadata m)
  | date_original {m m2 : PilExifManager} (dt : PyDateTime) :
      set_date_original m dt = .ok m2 → Step m m2
  | date_digitized {m m2 : PilExifManager} (dt : PyDateTime) :
      set_date_digitized m dt = .ok m2 → Step m m2
  | artist {m m2 : PilExifManager} (s : PyStr) :
      set_artist m s = .ok m2 → Step m m2
  | camera_maker {m m2 : PilExifManager} (s : PyStr) :
      set_camera_maker m s = .ok m2 → Step m m2
  | camera_model {m m2 : PilExifManager} (s : PyStr) :
      set_camera_model m s = .ok m2 → Step m m2
  | copyright {m m2 : PilExifManager} (s : PyStr) :
      set_copyright m s = .ok m2 → Step m m2
  | exif_version {m m2 : PilExifManager} (s : PyStr) :
      set_exif_version m s = .ok m2 → Step m m2
  | software {m m2 : PilExifManager} (s : PyStr) :
      set_software m s = .ok m2 → Step m m2
  | orient {m m2 : PilExifManager} (n : Int) :
      set_orientation m n = .ok m2 → Step m m2
  | gps {m m2 : PilExifManager} (lat lon alt : ℚ) (msl : Bool) :
      set_gps_data m lat lon alt msl = .ok m2 → Step m m2
  | keywords {m m2 : PilExifManager} (kws : List PyStr) (ow : Bool) :
      add_keywords m kws ow = .ok m2 → Step m m2

/-- A manager state reachable from a fresh `PilExifManager()` by the
public operations. -/
def Reachable (m : PilExifManager) : Prop :=
  Relation.ReflTransGen Step initManager m

theorem except_bind_ok {ε α β : Type} (x : Except ε α) (f : α → Except ε β) (b : β)
    (h : x.bind f = .ok b) : ∃ a, x = .ok a ∧ f a = .ok b := by
  cases x with
  | error e => exact absurd h (by simp [Except.bind])
  | ok a => exact ⟨a, rfl, h⟩

theorem alLookup_foldl_alInsert_not_mem {α β : Type} [DecidableEq α]
    (l : List (α × β)) (d : List (α × β)) (k : α) (h : k ∉ l.map Prod.fst) :
    alLookup (l.foldl (fun acc kv => alInsert acc kv.1 kv.2) d) k = alLookup d k := by
  induction l generalizing d with
  | nil => rfl
  | cons kv rest ih =>
    have hk : k ≠ kv.1 := by
      intro he
      exact h (by simp [he])
    have hrest : k ∉ rest.map Prod.fst := fun hm => h (by simp [hm])
    rw [List.foldl_cons, ih _ hrest, alLookup_alInsert_ne _ _ _ _ hk]

theorem isSome_alLookup_alInsert {α β : Type} [DecidableEq α]
    (l : List (α × β)) (k k2 : α) (v : β) (h : (alLookup l k2).isSome) :
    (alLookup (alInsert l k v) k2).isSome := by
  by_cases he : k2 = k
  · subst he
    rw [alLookup_alInsert_self]
    rfl
  · rw [alLookup_alInsert_ne _ _ _ _ he]
    exact h

theorem isSome_alLookup_foldl_alInsert {α β : Type} [DecidableEq α]
    (l : List (α × β)) (d : List (α × β)) (k : α) (h : (alLookup d k).isSome) :
    (alLookup (l.foldl (fun acc kv => alInsert acc kv.1 kv.2) d) k).isSome := by
  induction l generalizing d with
  | nil => exact h
  | cons kv rest ih =>
    rw [List.foldl_cons]
    exact ih _ (isSome_alLookup_alInsert _ _ _ _ h)

theorem alLookup_foldl_assign_mem {α β : Type} [DecidableEq α]
    (assigns : List (α × β)) (d : List (α × β)) (t : α) (v : β)
    (hmem : (t, v) ∈ assigns) (hnodup : (assigns.map Prod.fst).Nodup) :
    alLookup (assigns.foldl (fun acc kv => alInsert acc kv.1 kv.2) d) t = some v := by
  induction assigns generalizing d with
  | nil => cases hmem
  | cons kv rest ih =>
    rw [List.foldl_cons]
    rcases List.mem_cons.mp hmem with heq | hmem2
    · subst heq
      have hnot : t ∉ rest.map Prod.fst := by
        simpa using (List.nodup_cons.mp hnodup).1
      rw [alLookup_foldl_alInsert_not_mem _ _ _ hnot, alLookup_alInsert_self]
    · exact ih _ hmem2 (List.nodup_cons.mp hnodup).2

theorem getIfd_ok_iff (meta : List (String × MetaVal)) (key : String)
    (d : List (Nat × PyVal)) :
    getIfd meta key = .ok d ↔ alLookup meta key = some (.ifd d) := by
  unfold getIfd
  cases hl : alLookup meta key with
  | none => simp
  | some mv => cases mv <;> simp

/-- Success of `setTags` pins down how the metadata changes. -/
theorem setTags_ok_iff (meta : List (String × MetaVal)) (key : String)
    (assigns : List (Nat × PyVal)) (meta2 : List (String × MetaVal)) :
    setTags meta key assigns = .ok meta2 ↔
      ∃ d, alLookup meta key = some (.ifd d) ∧
        meta2 = alInsert meta key
          (.ifd (assigns.foldl (fun acc kv => alInsert acc kv.1 kv.2) d)) := by
  constructor
  · intro h
    obtain ⟨d, hd, hf⟩ := except_bind_ok _ _ _ h
    refine ⟨d, (getIfd_ok_iff _ _ _).mp hd, ?_⟩
    cases hf
    rfl
  · rintro ⟨d, hd, hm⟩
    subst hm
    show (getIfd meta key) >>= _ = _
    rw [(getIfd_ok_iff meta key d).mpr hd]
    rfl

/-- Frame property of `setTags`: other top-level keys keep their
values, and inside the touched dict every unassigned tag keeps its
value. -/
theorem setTags_frame (meta : List (String × MetaVal)) (key : String)
    (assigns : List (Nat × PyVal)) (meta2 : List (String × MetaVal))
    (h : setTags meta key assigns = .ok meta2) :
    (∀ k, k ≠ key → alLookup meta2 k = alLookup meta k) ∧
    ∃ d, alLookup meta key = some (.ifd d) ∧
      alLookup meta2 key = some (.ifd
        (assigns.foldl (fun acc kv => alInsert acc kv.1 kv.2) d)) ∧
      ∀ t, t ∉ assigns.map Prod.fst →
        alLookup (assigns.foldl (fun acc kv => alInsert acc kv.1 kv.2) d) t =
          alLookup d t := by
  obtain ⟨d, hd, hm2⟩ := (setTags_ok_iff meta key assigns meta2).mp h
  subst hm2
  refine ⟨fun k hk => alLookup_alInsert_ne _ _ _ _ hk, d, hd, ?_, ?_⟩
  · exact alLookup_alInsert_self _ _ _
  · intro t ht
    exact alLookup_foldl_alInsert_not_mem _ _ _ ht

/-- A single step either resets `_temporal_keywords` or leaves it
untouched; no operation ever extends it. -/
theorem step_temporal_keywords (m1 m2 : PilExifManager) (h : Step m1 m2) :
    m2.temporal_keywords = [] ∨ m2.temporal_keywords = m1.temporal_keywords := by
  cases h with
  | load file dd he =>
    unfold load_file at he
    by_cases hc : upperAscii ((pathSuffix file).drop 1) ∈ READABLE_EXTENSIONS
    · rw [if_pos hc] at he
      obtain ⟨meta, _, hf⟩ := except_bind_ok _ _ _ he
      cases hf
      exact Or.inl rfl
    · rw [if_neg hc] at he
      cases he
  | clear => exact Or.inr rfl
  | date_original dt he =>
    obtain ⟨meta, _, hf⟩ := except_bind_ok _ _ _ he
    cases hf
    exact Or.inr rfl
  | date_digitized dt he =>
    obtain ⟨meta, _, hf⟩ := except_bind_ok _ _ _ he
    cases hf
    exact Or.inr rfl
  | artist s he =>
    obtain ⟨meta, _, hf⟩ := except_bind_ok _ _ _ he
    cases hf
    exact Or.inr rfl
  | camera_maker s he =>
    obtain ⟨meta, _, hf⟩ := except_bind_ok _ _ _ he
    cases hf
    exact Or.inr rfl
  | camera_model s he =>
    obtain ⟨meta, _, hf⟩ := except_bind_ok _ _ _ he
    cases hf
    exact Or.inr rfl
  | copyright s he =>
    obtain ⟨meta, _, hf⟩ := except_bind_ok _ _ _ he
    cases hf
    exact Or.inr rfl
  | exif_version s he =>
    obtain ⟨meta, _, hf⟩ := except_bind_ok _ _ _ he
    cases hf
    exact Or.inr rfl
  | software s he =>
    obtain ⟨meta, _, hf⟩ := except_bind_ok _ _ _ he
    cases hf
    exact Or.inr rfl
  | orient n he =>
    obtain ⟨meta, _, hf⟩ := except_bind_ok _ _ _ he
    cases hf
    exact Or.inr rfl
  | gps lat lon alt msl he =>
    obtain ⟨meta, _, hf⟩ := except_bind_ok _ _ _ he
    cases hf
    exact Or.inr rfl
  | keywords kws ow he =>
    obtain ⟨meta, _, hf⟩ := except_bind_ok _ _ _ he
    cases hf
    exact Or.inr rfl

/-- Every reachable state has an empty `_temporal_keywords` list: it is
initialized empty, reset by `load_file`, and never extended. -/
theorem reachable_temporal_keywords_nil (m : PilExifManager) (h : Reachable m) :
    m.temporal_keywords = [] := by
  induction h with
  | refl => rfl
  | tail hsteps hstep ih =>
    rcases step_temporal_keywords _ _ hstep with h1 | h1
    · exact h1
    · rw [h1]
      exact ih

theorem ok_bind {ε α β : Type} (a : α) (f : α → Except ε β) :
    (Except.ok a : Except ε α) >>= f = f a := rfl

theorem error_bind {ε α β : Type} (e : ε) (f : α → Except ε β) :
    (Except.error e : Except ε α) >>= f = Except.error e := rfl


theorem ifdGet_eq (meta : List (String × MetaVal)) (key : String) (tag : Nat)
    (d : List (Nat × PyVal)) (v : PyVal)
    (hd : alLookup meta key = some (.ifd d)) (hv : alLookup d tag = some v) :
    ifdGet meta key tag = .ok v := by
  unfold ifdGet
  rw [show getIfd meta key = .ok d from (getIfd_ok_iff meta key d).mpr hd, ok_bind, hv]

/-- A rational with denominator 1 is fixed (as a value) by Python
`int` truncation. -/
theorem pytrunc_den_one (q : ℚ) (h : q.den = 1) : ((pytrunc q : ℤ) : ℚ) = q := by
  have hq : ((q.num : ℚ)) = q := by
    have h2 := Rat.num_div_den q
    rw [h] at h2
    simpa using h2
  unfold pytrunc
  by_cases hneg : q < 0
  · rw [if_pos hneg]
    have h3 : -q = ((-q.num : ℤ) : ℚ) := by
      push_cast
      rw [hq]
    rw [h3, Int.floor_intCast]
    push_cast
    rw [hq]
    ring
  · rw [if_neg hneg, ← hq, Int.floor_intCast, hq]

/-- `_gps2val` on a value of the shape stored by `set_gps_data`. -/
theorem gps2val_gpsDmsVal (dmsz : Int × Int × ℚ × PyStr) (zp : Bool) :
    gps2val (gpsDmsVal dmsz) zp =
      .ok (dms_zone2deg ((dmsz.1 : ℚ)) ((dmsz.2.1 : ℚ))
        ((pytrunc (dmsz.2.2.1 * 100) : ℚ) / 100) zp) := by
  unfold gps2val gpsDmsVal
  simp [pyIndex, pyDiv, ok_bind]

theorem pyEqB_str_bytes (cs bs : List Nat) :
    pyEqB (.vstr cs) (.vbytes bs) = false := rfl

theorem pyEqB_msl (msl : Bool) :
    pyEqB (.vint (if msl then 1 else 0)) (.vint 1) = msl := by
  cases msl <;> rfl

theorem gpsAssigns_fst (lat lon alt : ℚ) (msl : Bool) :
    (gpsAssigns lat lon alt msl).map Prod.fst = [0, 5, 1, 3, 2, 4, 6] := rfl

/-- The six tag values found in the GPS dict right after
`set_gps_data`. -/
theorem gpsAssigns_lookups (lat lon alt : ℚ) (msl : Bool) (d : List (Nat × PyVal)) :
    let newd := (gpsAssigns lat lon alt msl).foldl (fun acc kv => alInsert acc kv.1 kv.2) d
    alLookup newd piexif.GPSIFD.GPSLatitude =
        some (gpsDmsVal (deg2dms_zone lat (chars "N") (chars "S"))) ∧
    alLookup newd piexif.GPSIFD.GPSLatitudeRef =
        some (.vstr (deg2dms_zone lat (chars "N") (chars "S")).2.2.2) ∧
    alLookup newd piexif.GPSIFD.GPSLongitude =
        some (gpsDmsVal (deg2dms_zone lon (chars "E") (chars "W"))) ∧
    alLookup newd piexif.GPSIFD.GPSLongitudeRef =
        some (.vstr (deg2dms_zone lon (chars "E") (chars "W")).2.2.2) ∧
    alLookup newd piexif.GPSIFD.GPSAltitude =
        some (.vtuple [.vint (pytrunc (alt * 100)), .vint 100]) ∧
    alLookup newd piexif.GPSIFD.GPSAltitudeRef =
        some (.vint (if msl then 1 else 0)) := by
  have hnodup : ((gpsAssigns lat lon alt msl).map Prod.fst).Nodup := by
    rw [gpsAssigns_fst]
    decide
  refine ⟨?_, ?_, ?_, ?_, ?_, ?_⟩ <;>
    exact alLookup_foldl_assign_mem _ d _ _ (by simp [gpsAssigns]) hnodup

/-- `set_gps_data` followed by `get_gps_data` in the embedded
semantics: because the hemisphere references are stored as Python
`str` values but compared against `bytes`, both zone tests come out
`False` and the reading returns minus the absolute value of each
coordinate.  The hundredth-of-a-second and hundredth-of-a-unit
hypotheses make the stored rationals exact. -/
theorem set_get_gps_data (m : PilExifManager) (d : List (Nat × PyVal))
    (lat lon alt : ℚ) (msl : Bool)
    (hd : alLookup m.metadata "GPS" = some (.ifd d))
    (hlat : ((deg2dms_zone lat (chars "N") (chars "S")).2.2.1 * 100).den = 1)
    (hlon : ((deg2dms_zone lon (chars "E") (chars "W")).2.2.1 * 100).den = 1)
    (halt : (alt * 100).den = 1) :
    ∃ m2, set_gps_data m lat lon alt msl = .ok m2 ∧
      get_gps_data m2 = .ok (-|lat|, -|lon|, alt, msl) := by
  have hset : setTags m.metadata "GPS" (gpsAssigns lat lon alt msl) =
      .ok (alInsert m.metadata "GPS" (.ifd ((gpsAssigns lat lon alt msl).foldl
        (fun acc kv => alInsert acc kv.1 kv.2) d))) :=
    (setTags_ok_iff _ _ _ _).mpr ⟨d, hd, rfl⟩
  refine ⟨{ m with metadata := alInsert m.metadata "GPS" (.ifd
    ((gpsAssigns lat lon alt msl).foldl (fun acc kv => alInsert acc kv.1 kv.2) d)) }, ?_, ?_⟩
  · show (setTags m.metadata "GPS" (gpsAssigns lat lon alt msl)) >>= _ = _
    rw [hset, ok_bind]
  · obtain ⟨hLat, hLatRef, hLon, hLonRef, hAlt, hAltRef⟩ :=
      gpsAssigns_lookups lat lon alt msl d
    have hgps : alLookup (alInsert m.metadata "GPS" (.ifd ((gpsAssigns lat lon alt msl).foldl
        (fun acc kv => alInsert acc kv.1 kv.2) d))) "GPS" =
        some (.ifd ((gpsAssigns lat lon alt msl).foldl
          (fun acc kv => alInsert acc kv.1 kv.2) d)) :=
      alLookup_alInsert_self _ _ _
    show get_gps_data { m with metadata := alInsert m.metadata "GPS" (.ifd
      ((gpsAssigns lat lon alt msl).foldl (fun acc kv => alInsert acc kv.1 kv.2) d)) } =
      .ok (-|lat|, -|lon|, alt, msl)
    unfold get_gps_data
    rw [ifdGet_eq _ _ _ _ _ hgps hLat, ok_bind,
        ifdGet_eq _ _ _ _ _ hgps hLatRef, ok_bind,
        pyEqB_str_bytes, gps2val_gpsDmsVal, ok_bind,
        ifdGet_eq _ _ _ _ _ hgps hLon, ok_bind,
        ifdGet_eq _ _ _ _ _ hgps hLonRef, ok_bind,
        pyEqB_str_bytes, gps2val_gpsDmsVal, ok_bind,
        ifdGet_eq _ _ _ _ _ hgps hAlt, ok_bind,
        ifdGet_eq _ _ _ _ _ hgps hAltRef, ok_bind]
    have e1 : pyIndex (.vtuple [.vint (pytrunc (alt * 100)), .vint 100]) 0 =
        .ok (.vint (pytrunc (alt * 100))) := rfl
    have e2 : pyIndex (.vtuple [.vint (pytrunc (alt * 100)), .vint 100]) 1 =
        .ok (.vint 100) := rfl
    rw [e1, ok_bind, e2, ok_bind]
    have e3 : pyDiv (.vint (pytrunc (alt * 100))) (.vint 100) =
        .ok (((pytrunc (alt * 100) : ℤ) : ℚ) / ((100 : ℤ) : ℚ)) := rfl
    rw [e3, ok_bind]
    have haltv : ((pytrunc (alt * 100) : ℤ) : ℚ) / ((100 : ℤ) : ℚ) = alt := by
      rw [pytrunc_den_one _ halt]
      push_cast
      field_simp
    have hlatv : dms_zone2deg ((deg2dms_zone lat (chars "N") (chars "S")).1 : ℚ)
        ((deg2dms_zone lat (chars "N") (chars "S")).2.1 : ℚ)
        ((pytrunc ((deg2dms_zone lat (chars "N") (chars "S")).2.2.1 * 100) : ℤ) / 100 : ℚ)
        false = -|lat| := by
      rw [pytrunc_den_one _ hlat]
      unfold dms_zone2deg
      rw [show ((deg2dms_zone lat (chars "N") (chars "S")).2.2.1 * 100) / 100 =
        (deg2dms_zone lat (chars "N") (chars "S")).2.2.1 from by field_simp]
      rw [deg2dms_zone_recombine lat (chars "N") (chars "S")]
      norm_num
    have hlonv : dms_zone2deg ((deg2dms_zone lon (chars "E") (chars "W")).1 : ℚ)
        ((deg2dms_zone lon (chars "E") (chars "W")).2.1 : ℚ)
        ((pytrunc ((deg2dms_zone lon (chars "E") (chars "W")).2.2.1 * 100) : ℤ) / 100 : ℚ)
        false = -|lon| := by
      rw [pytrunc_den_one _ hlon]
      unfold dms_zone2deg
      rw [show ((deg2dms_zone lon (chars "E") (chars "W")).2.2.1 * 100) / 100 =
        (deg2dms_zone lon (chars "E") (chars "W")).2.2.1 from by field_simp]
      rw [deg2dms_zone_recombine lon (chars "E") (chars "W")]
      norm_num
    rw [haltv, hlatv, hlonv, pyEqB_msl]

/-- C2: evaluation of `save_file` at a loaded JPG file and at a loaded
PNG file.  The source asserts `sfx not in self.EDITABLE_EXTENSIONS`,
so writing fails precisely for the editable JPG/JPEG formats and
passes for PNG, the opposite of the claim and of the assertion's own
error message. -/
theorem c2_save_file_assertion_inverted :
    save_file ⟨[], some (chars "photo.jpg"), []⟩ = .error .assertionError ∧
    save_file ⟨[], some (chars "photo.png"), []⟩ = .ok () := ⟨rfl, rfl⟩

/-- C6: for a file name whose upper-cased suffix (without the dot) is
not among `READABLE_EXTENSIONS`, `load_file` fails its assertion
regardless of what the imaging libraries would have produced for the
file (`dd` is universally quantified), so the file is never consulted
and the manager state is unchanged. -/
theorem c6_load_file_rejects_unreadable (m : PilExifManager) (file : PyStr)
    (dd : List (String × MetaVal))
    (h : upperAscii ((pathSuffix file).drop 1) ∉ READABLE_EXTENSIONS) :
    load_file m file dd = .error .assertionError := by
  unfold load_file
  rw [if_neg h]

/-- Witness for C6 at the concrete file name `picture.txt`. -/
theorem c6_load_file_rejects_unreadable_witness :
    upperAscii ((pathSuffix (chars "picture.txt")).drop 1) ∉ READABLE_EXTENSIONS ∧
    load_file initManager (chars "picture.txt") [] = .error .assertionError :=
  ⟨by decide,
    c6_load_file_rejects_unreadable initManager (chars "picture.txt") [] (by decide)⟩

/-- C8: in every reachable manager state `_temporal_keywords` is the
empty list, so `add_keywords` behaves identically with
`overwrite=False` and `overwrite=True`: both store the semicolon join
of exactly the given keywords, discarding whatever was stored before. -/
theorem c8_overwrite_flag_inert (m : PilExifManager) (h : Reachable m)
    (kws : List PyStr) :
    add_keywords m kws false = add_keywords m kws true := by
  have ht := reachable_temporal_keywords_nil m h
  unfold add_keywords
  rw [ht]
  simp

/-- Witness for C8 at the initial state and one concrete keyword
list. -/
theorem c8_overwrite_flag_inert_witness :
    add_keywords initManager [chars "holiday"] false =
      add_keywords initManager [chars "holiday"] true :=
  c8_overwrite_flag_inert initManager Relation.ReflTransGen.refl [chars "holiday"]

theorem joinWithChar_singleton (sep : Nat) (p : List Nat) :
    joinWithChar sep [p] = p := by
  simp [joinWithChar, List.intercalate]

theorem joinWithChar_cons_cons (sep : Nat) (p q : List Nat) (rest : List (List Nat)) :
    joinWithChar sep (p :: q :: rest) = p ++ sep :: joinWithChar sep (q :: rest) := by
  simp [joinWithChar, List.intercalate, List.intersperse_cons_cons]

/-- Every character of a join is the separator or comes from one of
the fragments. -/
theorem mem_joinWithChar (sep : Nat) (parts : List (List Nat)) (c : Nat)
    (h : c ∈ joinWithChar sep parts) : c = sep ∨ ∃ p ∈ parts, c ∈ p := by
  induction parts with
  | nil => cases h
  | cons p rest ih =>
    cases rest with
    | nil =>
      rw [joinWithChar_singleton] at h
      exact Or.inr ⟨p, List.mem_cons_self p [], h⟩
    | cons q rest2 =>
      rw [joinWithChar_cons_cons] at h
      rcases List.mem_append.mp h with h1 | h1
      · exact Or.inr ⟨p, List.mem_cons_self p _, h1⟩
      · rcases List.mem_cons.mp h1 with h2 | h2
        · exact Or.inl h2
        · rcases ih h2 with h3 | ⟨p2, hp2, hc2⟩
          · exact Or.inl h3
          · exact Or.inr ⟨p2, List.mem_cons_of_mem p hp2, hc2⟩

/-- C3: keyword round-trip.  For a non-empty list of non-empty
keyword strings (of Unicode scalar values) free of semicolons and NUL
characters, `add_keywords(kws, overwrite=True)` on a manager whose
metadata has the `0th` dict, followed by `get_keywords()`, returns
exactly the same list in the same order. -/
theorem c3_keywords_roundtrip (m : PilExifManager) (d : List (Nat × PyVal))
    (kws : List PyStr)
    (h0 : alLookup m.metadata "0th" = some (.ifd d))
    (hne : kws ≠ [])
    (hsemi : ∀ kw ∈ kws, (0x3B : Nat) ∉ kw)
    (hnul : ∀ kw ∈ kws, (0 : Nat) ∉ kw)
    (hok : ∀ kw ∈ kws, ∀ c ∈ kw, ScalarOk c) :
    ∃ m2, add_keywords m kws true = .ok m2 ∧ get_keywords m2 = .ok kws := by
  have hset : setTags m.metadata "0th"
      [(piexif.ImageIFD.XPKeywords, .vbytes (pyEncodeUtf16 (joinWithChar 0x3B kws)))] =
      .ok (alInsert m.metadata "0th" (.ifd (alInsert d piexif.ImageIFD.XPKeywords
        (.vbytes (pyEncodeUtf16 (joinWithChar 0x3B kws)))))) :=
    (setTags_ok_iff _ _ _ _).mpr ⟨d, h0, rfl⟩
  refine ⟨{ m with metadata := alInsert m.metadata "0th" (.ifd (alInsert d
    piexif.ImageIFD.XPKeywords (.vbytes (pyEncodeUtf16 (joinWithChar 0x3B kws))))) }, ?_, ?_⟩
  · show (setTags m.metadata "0th"
      [(piexif.ImageIFD.XPKeywords, .vbytes (pyEncodeUtf16 (joinWithChar 0x3B kws)))]) >>= _ = _
    rw [hset, ok_bind]
  · have hscal : ∀ c ∈ joinWithChar 0x3B kws, ScalarOk c := by
      intro c hc
      rcases mem_joinWithChar _ _ _ hc with h1 | ⟨p, hp, hcp⟩
      · rw [h1]
        exact Or.inl (by norm_num)
      · exact hok p hp c hcp
    have hnul2 : (0 : Nat) ∉ joinWithChar 0x3B kws := by
      intro hc
      rcases mem_joinWithChar _ _ _ hc with h1 | ⟨p, hp, hcp⟩
      · exact absurd h1 (by norm_num)
      · exact hnul p hp hcp
    have hl1 : alLookup (alInsert m.metadata "0th" (.ifd (alInsert d
        piexif.ImageIFD.XPKeywords (.vbytes (pyEncodeUtf16 (joinWithChar 0x3B kws))))))
        "0th" = some (.ifd (alInsert d piexif.ImageIFD.XPKeywords
          (.vbytes (pyEncodeUtf16 (joinWithChar 0x3B kws))))) :=
      alLookup_alInsert_self _ _ _
    have hl2 : alLookup (alInsert d piexif.ImageIFD.XPKeywords
        (.vbytes (pyEncodeUtf16 (joinWithChar 0x3B kws)))) piexif.ImageIFD.XPKeywords =
        some (.vbytes (pyEncodeUtf16 (joinWithChar 0x3B kws))) :=
      alLookup_alInsert_self _ _ _
    have hdec : pyDecodeUtf16 (pyEncodeUtf16 (joinWithChar 0x3B kws)) =
        some (joinWithChar 0x3B kws) :=
      pyDecodeUtf16_pyEncodeUtf16 _ hscal
    unfold get_keywords
    simp only [hl1, hl2]
    show (pyBytesOf (.vbytes (pyEncodeUtf16 (joinWithChar 0x3B kws)))) >>= _ = _
    rw [show pyBytesOf (.vbytes (pyEncodeUtf16 (joinWithChar 0x3B kws))) =
      .ok (pyEncodeUtf16 (joinWithChar 0x3B kws)) from rfl, ok_bind]
    simp only [hdec]
    rw [takeUntilNul_of_no_nul _ hnul2, splitOnChar_joinWithChar 0x3B kws hne hsemi]

/-- Witness for C3 at a concrete two-keyword list. -/
theorem c3_keywords_roundtrip_witness :
    ∃ m2, add_keywords ⟨[("0th", .ifd [])], none, []⟩
        [chars "beach", chars "2022"] true = .ok m2 ∧
      get_keywords m2 = .ok [chars "beach", chars "2022"] :=
  c3_keywords_roundtrip ⟨[("0th", .ifd [])], none, []⟩ [] [chars "beach", chars "2022"]
    rfl (by decide) (by decide) (by decide) (by decide)

theorem get_date_original_sentinel (m : PilExifManager) (d : List (Nat × PyVal))
    (bs s : List Nat) (hE : alLookup m.metadata "Exif" = some (.ifd d))
    (hv : alLookup d piexif.ExifIFD.DateTimeOriginal = some (.vbytes bs))
    (hdec : pyDecodeUtf8 bs = some s) (hp : str2datetime s = none) :
    get_date_original m = .ok dtSentinel := by
  unfold get_date_original
  rw [ifdGet_eq _ _ _ _ _ hE hv, ok_bind]
  simp [hdec, hp]

theorem get_date_digitized_sentinel (m : PilExifManager) (d : List (Nat × PyVal))
    (bs s : List Nat) (hE : alLookup m.metadata "Exif" = some (.ifd d))
    (hv : alLookup d piexif.ExifIFD.DateTimeDigitized = some (.vbytes bs))
    (hdec : pyDecodeUtf8 bs = some s) (hp : str2datetime s = none) :
    get_date_digitized m = .ok dtSentinel := by
  unfold get_date_digitized
  rw [ifdGet_eq _ _ _ _ _ hE hv, ok_bind]
  simp [hdec, hp]

theorem get_date_original_bytes_ok (m : PilExifManager) (d : List (Nat × PyVal))
    (bs : List Nat) (hE : alLookup m.metadata "Exif" = some (.ifd d))
    (hv : alLookup d piexif.ExifIFD.DateTimeOriginal = some (.vbytes bs)) :
    ∃ dt, get_date_original m = .ok dt := by
  unfold get_date_original
  rw [ifdGet_eq _ _ _ _ _ hE hv, ok_bind]
  cases hdec : pyDecodeUtf8 bs with
  | none => exact ⟨dtSentinel, by simp [hdec]⟩
  | some s =>
    cases hp : str2datetime s with
    | none => exact ⟨dtSentinel, by simp [hdec, hp]⟩
    | some dt => exact ⟨dt, by simp [hdec, hp]⟩

theorem get_date_digitized_bytes_ok (m : PilExifManager) (d : List (Nat × PyVal))
    (bs : List Nat) (hE : alLookup m.metadata "Exif" = some (.ifd d))
    (hv : alLookup d piexif.ExifIFD.DateTimeDigitized = some (.vbytes bs)) :
    ∃ dt, get_date_digitized m = .ok dt := by
  unfold get_date_digitized
  rw [ifdGet_eq _ _ _ _ _ hE hv, ok_bind]
  cases hdec : pyDecodeUtf8 bs with
  | none => exact ⟨dtSentinel, by simp [hdec]⟩
  | some s =>
    cases hp : str2datetime s with
    | none => exact ⟨dtSentinel, by simp [hdec, hp]⟩
    | some dt => exact ⟨dt, by simp [hdec, hp]⟩

theorem has_date_original_eq (m : PilExifManager) (d : List (Nat × PyVal))
    (hE : alLookup m.metadata "Exif" = some (.ifd d)) :
    has_date_original m = .ok (alLookup d piexif.ExifIFD.DateTimeOriginal).isSome := by
  unfold has_date_original
  rw [show getIfd m.metadata "Exif" = .ok d from (getIfd_ok_iff _ _ _).mpr hE, ok_bind]

theorem has_date_digitized_eq (m : PilExifManager) (d : List (Nat × PyVal))
    (hE : alLookup m.metadata "Exif" = some (.ifd d)) :
    has_date_digitized m = .ok (alLookup d piexif.ExifIFD.DateTimeDigitized).isSome := by
  unfold has_date_digitized
  rw [show getIfd m.metadata "Exif" = .ok d from (getIfd_ok_iff _ _ _).mpr hE, ok_bind]

/-- C4: invalid-date sentinel.  On a manager whose `Exif` dict is
present: a `DateTimeOriginal` value that is a UTF-8-decodable byte
string not parsing as a `YYYY:MM:DD HH:MM:SS` datetime makes
`get_date_original` return `datetime(1, 1, 1)` instead of raising;
and, provided the tag value (when present) is a byte string,
`has_valid_date_original` returns `True` exactly when the tag is
present and the parsed datetime's year is not 1.  The same holds for
`DateTimeDigitized` with `get_date_digitized` and
`has_valid_date_digitized`. -/
theorem c4_invalid_date_sentinel (m : PilExifManager) (d : List (Nat × PyVal))
    (hE : alLookup m.metadata "Exif" = some (.ifd d)) :
    (∀ bs s, alLookup d piexif.ExifIFD.DateTimeOriginal = some (.vbytes bs) →
      pyDecodeUtf8 bs = some s → str2datetime s = none →
      get_date_original m = .ok dtSentinel) ∧
    ((∀ v, alLookup d piexif.ExifIFD.DateTimeOriginal = some v → ∃ bs, v = .vbytes bs) →
      ∃ b, has_valid_date_original m = .ok b ∧
        (b = true ↔ (alLookup d piexif.ExifIFD.DateTimeOriginal).isSome = true ∧
          ∃ dt, get_date_original m = .ok dt ∧ dt.year ≠ 1)) ∧
    (∀ bs s, alLookup d piexif.ExifIFD.DateTimeDigitized = some (.vbytes bs) →
      pyDecodeUtf8 bs = some s → str2datetime s = none →
      get_date_digitized m = .ok dtSentinel) ∧
    ((∀ v, alLookup d piexif.ExifIFD.DateTimeDigitized = some v → ∃ bs, v = .vbytes bs) →
      ∃ b, has_valid_date_digitized m = .ok b ∧
        (b = true ↔ (alLookup d piexif.ExifIFD.DateTimeDigitized).isSome = true ∧
          ∃ dt, get_date_digitized m = .ok dt ∧ dt.year ≠ 1)) := by
  refine ⟨fun bs s hv hdec hp => get_date_original_sentinel m d bs s hE hv hdec hp,
    ?_, fun bs s hv hdec hp => get_date_digitized_sentinel m d bs s hE hv hdec hp, ?_⟩
  · intro hbv
    have hhd := has_date_original_eq m d hE
    cases hl : alLookup d piexif.ExifIFD.DateTimeOriginal with
    | none =>
      rw [hl] at hhd
      refine ⟨false, ?_, by simp [hl]⟩
      unfold has_valid_date_original
      rw [hhd, ok_bind]
      rfl
    | some v =>
      obtain ⟨bs, rfl⟩ := hbv v hl
      obtain ⟨dt, hget⟩ := get_date_original_bytes_ok m d bs hE hl
      rw [hl] at hhd
      refine ⟨decide (dt.year ≠ 1), ?_, ?_⟩
      · unfold has_valid_date_original
        rw [hhd, ok_bind]
        show (get_date_original m) >>= _ = _
        rw [hget, ok_bind]
      · simp [hl, hget]
  · intro hbv
    have hhd := has_date_digitized_eq m d hE
    cases hl : alLookup d piexif.ExifIFD.DateTimeDigitized with
    | none =>
      rw [hl] at hhd
      refine ⟨false, ?_, by simp [hl]⟩
      unfold has_valid_date_digitized
      rw [hhd, ok_bind]
      rfl
    | some v =>
      obtain ⟨bs, rfl⟩ := hbv v hl
      obtain ⟨dt, hget⟩ := get_date_digitized_bytes_ok m d bs hE hl
      rw [hl] at hhd
      refine ⟨decide (dt.year ≠ 1), ?_, ?_⟩
      · unfold has_valid_date_digitized
        rw [hhd, ok_bind]
        show (get_date_digitized m) >>= _ = _
        rw [hget, ok_bind]
      · simp [hl, hget]

/-- Witness for C4: a present but unparsable `DateTimeOriginal` byte
string yields the sentinel. -/
theorem c4_invalid_date_sentinel_witness :
    get_date_original ⟨[("Exif", .ifd
      [(piexif.ExifIFD.DateTimeOriginal, .vbytes (chars "hello"))])], none, []⟩ =
      .ok dtSentinel :=
  (c4_invalid_date_sentinel
    ⟨[("Exif", .ifd [(piexif.ExifIFD.DateTimeOriginal, .vbytes (chars "hello"))])], none, []⟩
    [(piexif.ExifIFD.DateTimeOriginal, .vbytes (chars "hello"))]
    rfl).1 (chars "hello") (chars "hello") rfl rfl rfl

theorem basicFold_preserves (L : List String) (mm : List (String × MetaVal))
    (k : String) (v : MetaVal) (h : alLookup mm k = some v) :
    alLookup (L.foldl (fun acc kwd =>
      if (alLookup acc kwd).isSome then acc else alInsert acc kwd (.ifd [])) mm) k =
      some v := by
  induction L generalizing mm with
  | nil => exact h
  | cons kwd rest ih =>
    rw [List.foldl_cons]
    have hstep : alLookup
        (if (alLookup mm kwd).isSome then mm else alInsert mm kwd (.ifd [])) k = some v := by
      by_cases hk : (alLookup mm kwd).isSome
      · rw [if_pos hk]
        exact h
      · rw [if_neg hk]
        by_cases he : k = kwd
        · subst he
          rw [h] at hk
          simp at hk
        · rw [alLookup_alInsert_ne _ _ _ _ he]
          exact h
    exact ih _ hstep

theorem basicFold_present (L : List String) (mm : List (String × MetaVal))
    (k : String) (hk : k ∈ L) :
    (alLookup (L.foldl (fun acc kwd =>
      if (alLookup acc kwd).isSome then acc else alInsert acc kwd (.ifd [])) mm) k).isSome := by
  induction L generalizing mm with
  | nil => cases hk
  | cons kwd rest ih =>
    rw [List.foldl_cons]
    by_cases he : k ∈ rest
    · exact ih _ he
    · have hkk : kwd = k := by
        rcases List.mem_cons.mp hk with h1 | h1
        · exact h1.symm
        · exact absurd h1 he
      subst hkk
      have hstep : (alLookup
          (if (alLookup mm kwd).isSome then mm else alInsert mm kwd (.ifd [])) kwd).isSome := by
        by_cases hk2 : (alLookup mm kwd).isSome
        · rw [if_pos hk2]
          exact hk2
        · rw [if_neg hk2, alLookup_alInsert_self]
          rfl
      obtain ⟨v, hv⟩ := Option.isSome_iff_exists.mp hstep
      rw [basicFold_preserves rest _ kwd v hv]
      rfl

theorem basicFold_absent (L : List String) (mm : List (String × MetaVal))
    (k : String) (hk : k ∈ L) (h : alLookup mm k = none) :
    alLookup (L.foldl (fun acc kwd =>
      if (alLookup acc kwd).isSome then acc else alInsert acc kwd (.ifd [])) mm) k =
      some (.ifd []) := by
  induction L generalizing mm with
  | nil => cases hk
  | cons kwd rest ih =>
    rw [List.foldl_cons]
    by_cases he : kwd = k
    · subst he
      rw [show (if (alLookup mm kwd).isSome then mm else alInsert mm kwd (.ifd [])) =
        alInsert mm kwd (.ifd []) from by rw [if_neg (by simp [h])]]
      exact basicFold_preserves rest _ kwd _ (alLookup_alInsert_self _ _ _)
    · have hkr : k ∈ rest := by
        rcases List.mem_cons.mp hk with h1 | h1
        · exact absurd h1.symm he
        · exact h1
      have hstep : alLookup
          (if (alLookup mm kwd).isSome then mm else alInsert mm kwd (.ifd [])) k = none := by
        by_cases hk2 : (alLookup mm kwd).isSome
        · rw [if_pos hk2]
          exact h
        · rw [if_neg hk2, alLookup_alInsert_ne _ _ _ _ (fun hh => he hh.symm)]
          exact h
      exact ih _ hkr hstep

theorem load_exif_data_eq_sub (dd ex : List (String × MetaVal))
    (h : alLookup dd "exif" = some (.sub ex)) :
    load_exif_data dd = .ok ((["Exif", "0th", "1st", "GPS"] : List String).foldl
      (fun acc kwd => if (alLookup acc kwd).isSome then acc else alInsert acc kwd (.ifd []))
      ((dd.filter (fun kv => kv.1 ≠ "exif")).foldl
        (fun acc kv => alInsert acc kv.1 kv.2) ex)) := by
  unfold load_exif_data
  rw [h]
  rfl

theorem load_exif_data_eq_none (dd : List (String × MetaVal))
    (h : alLookup dd "exif" = none) :
    load_exif_data dd = .ok ((["Exif", "0th", "1st", "GPS"] : List String).foldl
      (fun acc kwd => if (alLookup acc kwd).isSome then acc else alInsert acc kwd (.ifd []))
      ((dd.filter (fun kv => kv.1 ≠ "exif")).foldl
        (fun acc kv => alInsert acc kv.1 kv.2) [])) := by
  unfold load_exif_data
  rw [h]
  rfl

/-- C5 (amended): after a successful `load_file`-style metadata load,
the four basic keys are all present; every key of the `exif` sub-dict
is present at top level, with its value preserved unless another
top-level entry of the file's metadata has the same name and
overwrites it; and each of the four basic keys that is still absent
after the merge is bound to an empty dict. -/
theorem c5_default_key_initialization (dd ex meta : List (String × MetaVal))
    (hex : alLookup dd "exif" = some (.sub ex) ∨ (alLookup dd "exif" = none ∧ ex = []))
    (hld : load_exif_data dd = .ok meta) :
    ((alLookup meta "Exif").isSome ∧ (alLookup meta "0th").isSome ∧
     (alLookup meta "1st").isSome ∧ (alLookup meta "GPS").isSome) ∧
    (∀ k, (alLookup ex k).isSome → (alLookup meta k).isSome) ∧
    (∀ k v, alLookup ex k = some v →
      k ∉ (dd.filter (fun kv => kv.1 ≠ "exif")).map Prod.fst →
      alLookup meta k = some v) ∧
    (∀ key, key ∈ (["Exif", "0th", "1st", "GPS"] : List String) →
      alLookup ((dd.filter (fun kv => kv.1 ≠ "exif")).foldl
        (fun acc kv => alInsert acc kv.1 kv.2) ex) key = none →
      alLookup meta key = some (.ifd [])) := by
  have hmeta : meta = (["Exif", "0th", "1st", "GPS"] : List String).foldl
      (fun acc kwd => if (alLookup acc kwd).isSome then acc else alInsert acc kwd (.ifd []))
      ((dd.filter (fun kv => kv.1 ≠ "exif")).foldl
        (fun acc kv => alInsert acc kv.1 kv.2) ex) := by
    rcases hex with hsub | ⟨hnone, hexnil⟩
    · rw [load_exif_data_eq_sub dd ex hsub] at hld
      exact (Except.ok.inj hld).symm
    · subst hexnil
      rw [load_exif_data_eq_none dd hnone] at hld
      exact (Except.ok.inj hld).symm
  subst hmeta
  refine ⟨⟨basicFold_present _ _ _ (by simp), basicFold_present _ _ _ (by simp),
    basicFold_present _ _ _ (by simp), basicFold_present _ _ _ (by simp)⟩, ?_, ?_, ?_⟩
  · intro k hk
    have hm : (alLookup ((dd.filter (fun kv => kv.1 ≠ "exif")).foldl
        (fun acc kv => alInsert acc kv.1 kv.2) ex) k).isSome :=
      isSome_alLookup_foldl_alInsert _ _ _ hk
    obtain ⟨v, hv⟩ := Option.isSome_iff_exists.mp hm
    rw [basicFold_preserves _ _ _ _ hv]
    rfl
  · intro k v hk hnm
    have hm : alLookup ((dd.filter (fun kv => kv.1 ≠ "exif")).foldl
        (fun acc kv => alInsert acc kv.1 kv.2) ex) k = some v := by
      rw [alLookup_foldl_alInsert_not_mem _ _ _ hnm]
      exact hk
    exact basicFold_preserves _ _ _ _ hm
  · intro key hkey habs
    exact basicFold_absent _ _ _ hkey habs

/-- C5 counterexample to the claim as stated: a file whose metadata
has both an `exif` sub-dict binding `0th` and a top-level `0th` entry;
the merge overwrites the sub-dict's entry, so that entry does not
appear at top level after `load_file`. -/
theorem c5_default_key_initialization_counterexample :
    load_file initManager (chars "a.jpg")
      [("exif", .sub [("0th", .ifd [(1, .vint 1)])]), ("0th", .raw (.vint 2))] =
      .ok ⟨[("0th", .raw (.vint 2)), ("Exif", .ifd []), ("1st", .ifd []), ("GPS", .ifd [])],
        some (chars "a.jpg"), []⟩ ∧
    alLookup ([("0th", MetaVal.raw (.vint 2)), ("Exif", .ifd []), ("1st", .ifd []),
      ("GPS", .ifd [])]) "0th" ≠ some (MetaVal.ifd [(1, .vint 1)]) :=
  ⟨rfl, fun h => MetaVal.noConfusion (Option.some.inj h)⟩

/-- Witness for C5 at a concrete one-entry metadata dict. -/
theorem c5_default_key_initialization_witness :
    (alLookup ([("exif", MetaVal.sub [("XYZ", MetaVal.raw (.vint 7))])] :
        List (String × MetaVal)) "exif" =
          some (.sub [("XYZ", MetaVal.raw (.vint 7))]) ∨
      (alLookup ([("exif", MetaVal.sub [("XYZ", MetaVal.raw (.vint 7))])] :
        List (String × MetaVal)) "exif" = none ∧
          ([("XYZ", MetaVal.raw (.vint 7))] : List (String × MetaVal)) = [])) ∧
    ((alLookup ([("XYZ", MetaVal.raw (.vint 7)), ("Exif", .ifd []), ("0th", .ifd []),
        ("1st", .ifd []), ("GPS", .ifd [])] : List (String × MetaVal)) "Exif").isSome ∧
      (alLookup ([("XYZ", MetaVal.raw (.vint 7)), ("Exif", .ifd []), ("0th", .ifd []),
        ("1st", .ifd []), ("GPS", .ifd [])] : List (String × MetaVal)) "0th").isSome ∧
      (alLookup ([("XYZ", MetaVal.raw (.vint 7)), ("Exif", .ifd []), ("0th", .ifd []),
        ("1st", .ifd []), ("GPS", .ifd [])] : List (String × MetaVal)) "1st").isSome ∧
      (alLookup ([("XYZ", MetaVal.raw (.vint 7)), ("Exif", .ifd []), ("0th", .ifd []),
        ("1st", .ifd []), ("GPS", .ifd [])] : List (String × MetaVal)) "GPS").isSome) :=
  ⟨Or.inl rfl,
    (c5_default_key_initialization
      [("exif", MetaVal.sub [("XYZ", MetaVal.raw (.vint 7))])]
      [("XYZ", MetaVal.raw (.vint 7))]
      [("XYZ", MetaVal.raw (.vint 7)), ("Exif", .ifd []), ("0th", .ifd []),
        ("1st", .ifd []), ("GPS", .ifd [])]
      (Or.inl rfl) rfl).1⟩

/-- Shape accepted for `GPSAltitude` by `get_gps_data`: a pair of ints
with a non-zero denominator. -/
def gpsPairOkB : PyVal → Bool
  | .vtuple [.vint _, .vint b] => b != 0
  | _ => false

/-- Shape accepted for `GPSLatitude`/`GPSLongitude` by `_gps2val`:
three such pairs. -/
def gpsTripleOkB : PyVal → Bool
  | .vtuple [p1, p2, p3] => gpsPairOkB p1 && gpsPairOkB p2 && gpsPairOkB p3
  | _ => false

/-- A tag is absent or its value passes the given shape check. -/
def gpsTagOkB (g : List (Nat × PyVal)) (tag : Nat) (check : PyVal → Bool) : Bool :=
  match alLookup g tag with
  | some v => check v
  | none => true

/-- Well-shapedness of the stored GPS values: whatever is present
under the numeric GPS tags has the shape `get_gps_data` consumes
without raising a non-`KeyError` exception. -/
def gpsShapeOkB (m : PilExifManager) : Bool :=
  match alLookup m.metadata "GPS" with
  | some (.ifd g) => gpsTagOkB g piexif.GPSIFD.GPSLatitude gpsTripleOkB &&
      gpsTagOkB g piexif.GPSIFD.GPSLongitude gpsTripleOkB &&
      gpsTagOkB g piexif.GPSIFD.GPSAltitude gpsPairOkB
  | some _ => false
  | none => true

/-- Presence condition named by the claim: the `GPS` dict exists and
all six tags read by `get_gps_data` are present.  This definition
follows the claim's words, for comparison with `has_gps_data`. -/
def hasAllSixGpsB (m : PilExifManager) : Bool :=
  match alLookup m.metadata "GPS" with
  | some (.ifd g) => (alLookup g piexif.GPSIFD.GPSLatitude).isSome &&
      (alLookup g piexif.GPSIFD.GPSLatitudeRef).isSome &&
      (alLookup g piexif.GPSIFD.GPSLongitude).isSome &&
      (alLookup g piexif.GPSIFD.GPSLongitudeRef).isSome &&
      (alLookup g piexif.GPSIFD.GPSAltitude).isSome &&
      (alLookup g piexif.GPSIFD.GPSAltitudeRef).isSome
  | _ => false

theorem gpsPairOkB_inv (v : PyVal) (h : gpsPairOkB v = true) :
    ∃ a b : Int, v = .vtuple [.vint a, .vint b] ∧ b ≠ 0 := by
  unfold gpsPairOkB at h
  split at h
  · rename_i a b
    exact ⟨a, b, rfl, by simpa using h⟩
  · cases h

theorem gps2val_ok_of_tripleOk (v : PyVal) (zp : Bool) (h : gpsTripleOkB v = true) :
    ∃ q, gps2val v zp = .ok q := by
  unfold gpsTripleOkB at h
  split at h
  · rename_i p1 p2 p3
    simp only [Bool.and_eq_true] at h
    obtain ⟨⟨h1, h2⟩, h3⟩ := h
    obtain ⟨a1, b1, rfl, hb1⟩ := gpsPairOkB_inv p1 h1
    obtain ⟨a2, b2, rfl, hb2⟩ := gpsPairOkB_inv p2 h2
    obtain ⟨a3, b3, rfl, hb3⟩ := gpsPairOkB_inv p3 h3
    refine ⟨dms_zone2deg ((a1 : ℚ) / (b1 : ℚ)) ((a2 : ℚ) / (b2 : ℚ))
      ((a3 : ℚ) / (b3 : ℚ)) zp, ?_⟩
    unfold gps2val
    simp [pyIndex, pyDiv, hb1, hb2, hb3, ok_bind]
  · cases h

theorem ifdGet_absent_key (meta : List (String × MetaVal)) (key : String) (tag : Nat)
    (h : alLookup meta key = none) : ifdGet meta key tag = .error .keyError := by
  unfold ifdGet getIfd
  rw [h]
  rfl

theorem ifdGet_absent_tag (meta : List (String × MetaVal)) (key : String) (tag : Nat)
    (d : List (Nat × PyVal)) (hd : alLookup meta key = some (.ifd d))
    (h : alLookup d tag = none) : ifdGet meta key tag = .error .keyError := by
  unfold ifdGet
  rw [show getIfd meta key = .ok d from (getIfd_ok_iff _ _ _).mpr hd, ok_bind, h]

theorem hasAllSixGpsB_none (m : PilExifManager)
    (hm : alLookup m.metadata "GPS" = none) : hasAllSixGpsB m = false := by
  unfold hasAllSixGpsB
  rw [hm]

theorem hasAllSixGpsB_ifd (m : PilExifManager) (g : List (Nat × PyVal))
    (hm : alLookup m.metadata "GPS" = some (.ifd g)) :
    hasAllSixGpsB m = ((alLookup g piexif.GPSIFD.GPSLatitude).isSome &&
      (alLookup g piexif.GPSIFD.GPSLatitudeRef).isSome &&
      (alLookup g piexif.GPSIFD.GPSLongitude).isSome &&
      (alLookup g piexif.GPSIFD.GPSLongitudeRef).isSome &&
      (alLookup g piexif.GPSIFD.GPSAltitude).isSome &&
      (alLookup g piexif.GPSIFD.GPSAltitudeRef).isSome) := by
  unfold hasAllSixGpsB
  rw [hm]

/-- C7 (amended): provided every value stored under the read GPS tags
is well-shaped, `has_gps_data` returns exactly the presence condition
of the claim: the `GPS` dict exists and all six tags are present.
Only `KeyError` is caught; ill-shaped values make it raise (see the
counterexample). -/
theorem c7_has_gps_data_presence (m : PilExifManager) (hshape : gpsShapeOkB m = true) :
    has_gps_data m = .ok (hasAllSixGpsB m) := by
  cases hm : alLookup m.metadata "GPS" with
  | none =>
    have hg : get_gps_data m = .error .keyError := by
      unfold get_gps_data
      rw [ifdGet_absent_key _ _ _ hm, error_bind]
    unfold has_gps_data
    rw [hasAllSixGpsB_none m hm, hg]
  | some mv =>
    cases mv with
    | sub s =>
      unfold gpsShapeOkB at hshape
      rw [hm] at hshape
      cases hshape
    | raw v =>
      unfold gpsShapeOkB at hshape
      rw [hm] at hshape
      cases hshape
    | ifd g =>
      unfold gpsShapeOkB at hshape
      rw [hm] at hshape
      simp only [Bool.and_eq_true] at hshape
      obtain ⟨⟨hs2, hs4⟩, hs6⟩ := hshape
      cases hLat : alLookup g piexif.GPSIFD.GPSLatitude with
      | none =>
        have hg : get_gps_data m = .error .keyError := by
          unfold get_gps_data
          rw [ifdGet_absent_tag _ _ _ _ hm hLat, error_bind]
        unfold has_gps_data
        rw [hasAllSixGpsB_ifd m g hm, hg, hLat]
        rfl
      | some vLat =>
        have hTripleLat : gpsTripleOkB vLat = true := by
          unfold gpsTagOkB at hs2
          rw [hLat] at hs2
          exact hs2
        cases hLatRef : alLookup g piexif.GPSIFD.GPSLatitudeRef with
        | none =>
          have hg : get_gps_data m = .error .keyError := by
            unfold get_gps_data
            rw [ifdGet_eq _ _ _ _ _ hm hLat, ok_bind,
                ifdGet_absent_tag _ _ _ _ hm hLatRef, error_bind]
          unfold has_gps_data
          rw [hasAllSixGpsB_ifd m g hm, hg, hLat, hLatRef]
          rfl
        | some vLatRef =>
          obtain ⟨q1, hq1⟩ :=
            gps2val_ok_of_tripleOk vLat (pyEqB vLatRef (.vbytes (chars "N"))) hTripleLat
          cases hLon : alLookup g piexif.GPSIFD.GPSLongitude with
          | none =>
            have hg : get_gps_data m = .error .keyError := by
              unfold get_gps_data
              rw [ifdGet_eq _ _ _ _ _ hm hLat, ok_bind,
                  ifdGet_eq _ _ _ _ _ hm hLatRef, ok_bind, hq1, ok_bind,
                  ifdGet_absent_tag _ _ _ _ hm hLon, error_bind]
            unfold has_gps_data
            rw [hasAllSixGpsB_ifd m g hm, hg, hLat, hLatRef, hLon]
            rfl
          | some vLon =>
            have hTripleLon : gpsTripleOkB vLon = true := by
              unfold gpsTagOkB at hs4
              rw [hLon] at hs4
              exact hs4
            cases hLonRef : alLookup g piexif.GPSIFD.GPSLongitudeRef with
            | none =>
              have hg : get_gps_data m = .error .keyError := by
                unfold get_gps_data
                rw [ifdGet_eq _ _ _ _ _ hm hLat, ok_bind,
                    ifdGet_eq _ _ _ _ _ hm hLatRef, ok_bind, hq1, ok_bind,
                    ifdGet_eq _ _ _ _ _ hm hLon, ok_bind,
                    ifdGet_absent_tag _ _ _ _ hm hLonRef, error_bind]
              unfold has_gps_data
              rw [hasAllSixGpsB_ifd m g hm, hg, hLat, hLatRef, hLon, hLonRef]
              rfl
            | some vLonRef =>
              obtain ⟨q2, hq2⟩ :=
                gps2val_ok_of_tripleOk vLon (pyEqB vLonRef (.vbytes (chars "E"))) hTripleLon
              cases hAlt : alLookup g piexif.GPSIFD.GPSAltitude with
              | none =>
                have hg : get_gps_data m = .error .keyError := by
                  unfold get_gps_data
                  rw [ifdGet_eq _ _ _ _ _ hm hLat, ok_bind,
                      ifdGet_eq _ _ _ _ _ hm hLatRef, ok_bind, hq1, ok_bind,
                      ifdGet_eq _ _ _ _ _ hm hLon, ok_bind,
                      ifdGet_eq _ _ _ _ _ hm hLonRef, ok_bind, hq2, ok_bind,
                      ifdGet_absent_tag _ _ _ _ hm hAlt, error_bind]
                unfold has_gps_data
                rw [hasAllSixGpsB_ifd m g hm, hg, hLat, hLatRef, hLon, hLonRef, hAlt]
                rfl
              | some vAlt =>
                have hPair : gpsPairOkB vAlt = true := by
                  unfold gpsTagOkB at hs6
                  rw [hAlt] at hs6
                  exact hs6
                obtain ⟨a3, b3, rfl, hb3⟩ := gpsPairOkB_inv vAlt hPair
                cases hAltRef : alLookup g piexif.GPSIFD.GPSAltitudeRef with
                | none =>
                  have hg : get_gps_data m = .error .keyError := by
                    unfold get_gps_data
                    rw [ifdGet_eq _ _ _ _ _ hm hLat, ok_bind,
                        ifdGet_eq _ _ _ _ _ hm hLatRef, ok_bind, hq1, ok_bind,
                        ifdGet_eq _ _ _ _ _ hm hLon, ok_bind,
                        ifdGet_eq _ _ _ _ _ hm hLonRef, ok_bind, hq2, ok_bind,
                        ifdGet_eq _ _ _ _ _ hm hAlt, ok_bind,
                        ifdGet_absent_tag _ _ _ _ hm hAltRef, error_bind]
                  unfold has_gps_data
                  rw [hasAllSixGpsB_ifd m g hm, hg, hLat, hLatRef, hLon, hLonRef, hAlt, hAltRef]
                  rfl
                | some vAltRef =>
                  have hg : get_gps_data m =
                      .ok (q1, q2, (a3 : ℚ) / (b3 : ℚ), pyEqB vAltRef (.vint 1)) := by
                    unfold get_gps_data
                    rw [ifdGet_eq _ _ _ _ _ hm hLat, ok_bind,
                        ifdGet_eq _ _ _ _ _ hm hLatRef, ok_bind, hq1, ok_bind,
                        ifdGet_eq _ _ _ _ _ hm hLon, ok_bind,
                        ifdGet_eq _ _ _ _ _ hm hLonRef, ok_bind, hq2, ok_bind,
                        ifdGet_eq _ _ _ _ _ hm hAlt, ok_bind,
                        ifdGet_eq _ _ _ _ _ hm hAltRef, ok_bind,
                        show pyIndex (.vtuple [.vint a3, .vint b3]) 0 = .ok (.vint a3) from rfl,
                        ok_bind,
                        show pyIndex (.vtuple [.vint a3, .vint b3]) 1 = .ok (.vint b3) from rfl,
                        ok_bind,
                        show pyDiv (.vint a3) (.vint b3) = .ok ((a3 : ℚ) / (b3 : ℚ)) from by
                          simp [pyDiv, hb3],
                        ok_bind]
                  unfold has_gps_data
                  rw [hasAllSixGpsB_ifd m g hm, hg, hLat, hLatRef, hLon, hLonRef, hAlt, hAltRef]
                  rfl

/-- Witness for C7 at a concrete well-shaped state with all six tags
present. -/
theorem c7_has_gps_data_presence_witness :
    has_gps_data ⟨[("GPS", .ifd
      [(piexif.GPSIFD.GPSLatitude, .vtuple [.vtuple [.vint 10, .vint 1],
         .vtuple [.vint 30, .vint 1], .vtuple [.vint 0, .vint 100]]),
       (piexif.GPSIFD.GPSLatitudeRef, .vbytes (chars "N")),
       (piexif.GPSIFD.GPSLongitude, .vtuple [.vtuple [.vint 20, .vint 1],
         .vtuple [.vint 0, .vint 1], .vtuple [.vint 50, .vint 100]]),
       (piexif.GPSIFD.GPSLongitudeRef, .vbytes (chars "E")),
       (piexif.GPSIFD.GPSAltitude, .vtuple [.vint 1250, .vint 100]),
       (piexif.GPSIFD.GPSAltitudeRef, .vint 1)])], none, []⟩ = .ok true :=
  c7_has_gps_data_presence _ rfl

/-- C7 counterexample to the claim as stated: all six tags are
present, yet `has_gps_data` does not return a boolean at all: with a
zero denominator stored under `GPSAltitude` the uncaught
`ZeroDivisionError` propagates. -/
theorem c7_has_gps_data_presence_counterexample :
    has_gps_data ⟨[("GPS", .ifd
      [(piexif.GPSIFD.GPSLatitude, .vtuple [.vtuple [.vint 10, .vint 1],
         .vtuple [.vint 30, .vint 1], .vtuple [.vint 0, .vint 100]]),
       (piexif.GPSIFD.GPSLatitudeRef, .vbytes (chars "N")),
       (piexif.GPSIFD.GPSLongitude, .vtuple [.vtuple [.vint 20, .vint 1],
         .vtuple [.vint 0, .vint 1], .vtuple [.vint 50, .vint 100]]),
       (piexif.GPSIFD.GPSLongitudeRef, .vbytes (chars "E")),
       (piexif.GPSIFD.GPSAltitude, .vtuple [.vint 1, .vint 0]),
       (piexif.GPSIFD.GPSAltitudeRef, .vint 1)])], none, []⟩ =
      .error .zeroDivisionError ∧
    hasAllSixGpsB ⟨[("GPS", .ifd
      [(piexif.GPSIFD.GPSLatitude, .vtuple [.vtuple [.vint 10, .vint 1],
         .vtuple [.vint 30, .vint 1], .vtuple [.vint 0, .vint 100]]),
       (piexif.GPSIFD.GPSLatitudeRef, .vbytes (chars "N")),
       (piexif.GPSIFD.GPSLongitude, .vtuple [.vtuple [.vint 20, .vint 1],
         .vtuple [.vint 0, .vint 1], .vtuple [.vint 50, .vint 100]]),
       (piexif.GPSIFD.GPSLongitudeRef, .vbytes (chars "E")),
       (piexif.GPSIFD.GPSAltitude, .vtuple [.vint 1, .vint 0]),
       (piexif.GPSIFD.GPSAltitudeRef, .vint 1)])], none, []⟩ = true :=
  ⟨rfl, rfl⟩

/-- One call to one of the eleven mutating tag setters, with its
arguments. -/
inductive SetterCall where
  | date_original (dt : PyDateTime)
  | date_digitized (dt : PyDateTime)
  | artist (s : PyStr)
  | camera_maker (s : PyStr)
  | camera_model (s : PyStr)
  | copyright (s : PyStr)
  | exif_version (s : PyStr)
  | software (s : PyStr)
  | orient (n : Int)
  | gps (lat lon alt : ℚ) (msl : Bool)
  | keywords (kws : List PyStr) (ow : Bool)

/-- Dispatch a `SetterCall` to the corresponding manager method. -/
def applySetter : SetterCall → PilExifManager → Except PyErr PilExifManager
  | .date_original dt, m => set_date_original m dt
  | .date_digitized dt, m => set_date_digitized m dt
  | .artist s, m => set_artist m s
  | .camera_maker s, m => set_camera_maker m s
  | .camera_model s, m => set_camera_model m s
  | .copyright s, m => set_copyright m s
  | .exif_version s, m => set_exif_version m s
  | .software s, m => set_software m s
  | .orient n, m => set_orientation m n
  | .gps lat lon alt msl, m => set_gps_data m lat lon alt msl
  | .keywords kws ow, m => add_keywords m kws ow

/-- The single IFD each setter writes to. -/
def setterIfd : SetterCall → String
  | .date_original _ => "Exif"
  | .date_digitized _ => "Exif"
  | .exif_version _ => "Exif"
  | .gps _ _ _ _ => "GPS"
  | _ => "0th"

/-- The documented tags each setter writes. -/
def setterTags : SetterCall → List Nat
  | .date_original _ => [piexif.ExifIFD.SubSecTimeOriginal, piexif.ExifIFD.DateTimeOriginal]
  | .date_digitized _ => [piexif.ExifIFD.SubSecTimeDigitized, piexif.ExifIFD.DateTimeDigitized]
  | .artist _ => [piexif.ImageIFD.Artist]
  | .camera_maker _ => [piexif.ImageIFD.Make]
  | .camera_model _ => [piexif.ImageIFD.Model]
  | .copyright _ => [piexif.ImageIFD.Copyright]
  | .exif_version _ => [piexif.ExifIFD.ExifVersion]
  | .software _ => [piexif.ImageIFD.Software]
  | .orient _ => [piexif.ImageIFD.Orientation]
  | .gps _ _ _ _ => [piexif.GPSIFD.GPSVersionID, piexif.GPSIFD.GPSAltitudeRef,
      piexif.GPSIFD.GPSLatitudeRef, piexif.GPSIFD.GPSLongitudeRef,
      piexif.GPSIFD.GPSLatitude, piexif.GPSIFD.GPSLongitude, piexif.GPSIFD.GPSAltitude]
  | .keywords _ _ => [piexif.ImageIFD.XPKeywords]

theorem setter_frame_aux (m m2 : PilExifManager) (key : String)
    (assigns : List (Nat × PyVal))
    (h : (setTags m.metadata key assigns).bind
      (fun meta => Except.ok { m with metadata := meta }) = .ok m2) :
    m2.filepath = m.filepath ∧ m2.temporal_keywords = m.temporal_keywords ∧
    (∀ k, k ≠ key → alLookup m2.metadata k = alLookup m.metadata k) ∧
    ∃ d d2, alLookup m.metadata key = some (.ifd d) ∧
      alLookup m2.metadata key = some (.ifd d2) ∧
      ∀ t, t ∉ assigns.map Prod.fst → alLookup d2 t = alLookup d t := by
  obtain ⟨meta, hset, hok⟩ := except_bind_ok _ _ _ h
  cases hok
  obtain ⟨htop, d, hd, hd2, htags⟩ := setTags_frame _ _ _ _ hset
  exact ⟨rfl, rfl, htop, d, _, hd, hd2, htags⟩

/-- C9: each setter modifies only its own documented tags within its
single target IFD; every other top-level metadata key, every other
tag of the target IFD, the file path and the temporal keywords are
unchanged by a successful call. -/
theorem c9_setter_frame (c : SetterCall) (m m2 : PilExifManager)
    (h : applySetter c m = .ok m2) :
    m2.filepath = m.filepath ∧ m2.temporal_keywords = m.temporal_keywords ∧
    (∀ k, k ≠ setterIfd c → alLookup m2.metadata k = alLookup m.metadata k) ∧
    ∃ d d2, alLookup m.metadata (setterIfd c) = some (.ifd d) ∧
      alLookup m2.metadata (setterIfd c) = some (.ifd d2) ∧
      ∀ t, t ∉ setterTags c → alLookup d2 t = alLookup d t := by
  cases c with
  | date_original dt => exact setter_frame_aux m m2 _ _ h
  | date_digitized dt => exact setter_frame_aux m m2 _ _ h
  | artist s => exact setter_frame_aux m m2 _ _ h
  | camera_maker s => exact setter_frame_aux m m2 _ _ h
  | camera_model s => exact setter_frame_aux m m2 _ _ h
  | copyright s => exact setter_frame_aux m m2 _ _ h
  | exif_version s => exact setter_frame_aux m m2 _ _ h
  | software s => exact setter_frame_aux m m2 _ _ h
  | orient n => exact setter_frame_aux m m2 _ _ h
  | gps lat lon alt msl => exact setter_frame_aux m m2 _ _ h
  | keywords kws ow => exact setter_frame_aux m m2 _ _ h

/-- Witness for C9: a concrete `set_artist` call leaves the `Exif`
dict untouched. -/
theorem c9_setter_frame_witness :
    alLookup (⟨[("0th", MetaVal.ifd [(11, .vint 5), (315, .vbytes [109, 101])]),
        ("Exif", MetaVal.ifd [(1, .vint 9)])], some (chars "x.jpg"), []⟩ :
      PilExifManager).metadata "Exif" =
    alLookup (⟨[("0th", MetaVal.ifd [(11, .vint 5)]),
        ("Exif", MetaVal.ifd [(1, .vint 9)])], some (chars "x.jpg"), []⟩ :
      PilExifManager).metadata "Exif" :=
  ((c9_setter_frame (.artist (chars "me"))
    ⟨[("0th", MetaVal.ifd [(11, .vint 5)]), ("Exif", MetaVal.ifd [(1, .vint 9)])],
      some (chars "x.jpg"), []⟩
    ⟨[("0th", MetaVal.ifd [(11, .vint 5), (315, .vbytes [109, 101])]),
      ("Exif", MetaVal.ifd [(1, .vint 9)])], some (chars "x.jpg"), []⟩
    rfl).2.2.1) "Exif" (by decide)

/-- C10 (amended): the five absent-tag getters with their defaults.
When the `0th` key is absent every one of them returns its empty
default; when `0th` is a dict, the four string getters never raise,
each returning its empty default when its tag is absent, and
`get_keywords` returns `[]` when `XPKeywords` is absent, returns a
list without raising whenever the stored value is a byte string whose
UTF-16 decoding succeeds, and right after `add_keywords([],
overwrite=True)` returns a one-element list holding the empty
string.  (With an undecodable byte value, or a non-dict `0th` value,
the getters raise: see the counterexample.) -/
theorem c10_getters_defaults (m : PilExifManager) :
    (alLookup m.metadata "0th" = none →
      get_keywords m = .ok [] ∧ get_camera_maker m = .ok (.vstr []) ∧
      get_camera_model m = .ok (.vstr []) ∧ get_description m = .ok (.vstr []) ∧
      get_copyright m = .ok (.vstr [])) ∧
    (∀ d, alLookup m.metadata "0th" = some (.ifd d) →
      ((∃ v, get_camera_maker m = .ok v) ∧ (∃ v, get_camera_model m = .ok v) ∧
       (∃ v, get_description m = .ok v) ∧ (∃ v, get_copyright m = .ok v)) ∧
      (alLookup d piexif.ImageIFD.Make = none → get_camera_maker m = .ok (.vstr [])) ∧
      (alLookup d piexif.ImageIFD.Model = none → get_camera_model m = .ok (.vstr [])) ∧
      (alLookup d piexif.ImageIFD.ImageDescription = none →
        get_description m = .ok (.vstr [])) ∧
      (alLookup d piexif.ImageIFD.Copyright = none → get_copyright m = .ok (.vstr [])) ∧
      (alLookup d piexif.ImageIFD.XPKeywords = none → get_keywords m = .ok []) ∧
      (∀ bs s, alLookup d piexif.ImageIFD.XPKeywords = some (.vbytes bs) →
        pyDecodeUtf16 bs = some s → ∃ l, get_keywords m = .ok l) ∧
      (∃ m2, add_keywords m [] true = .ok m2 ∧ get_keywords m2 = .ok [[]])) := by
  constructor
  · intro h0
    exact ⟨by simp [get_keywords, h0], by simp [get_camera_maker, h0],
      by simp [get_camera_model, h0], by simp [get_description, h0],
      by simp [get_copyright, h0]⟩
  · intro d h0
    refine ⟨⟨?_, ?_, ?_, ?_⟩, ?_, ?_, ?_, ?_, ?_, ?_, ?_⟩
    · cases hl : alLookup d piexif.ImageIFD.Make with
      | none => exact ⟨.vstr [], by simp [get_camera_maker, h0, hl]⟩
      | some v => exact ⟨v, by simp [get_camera_maker, h0, hl]⟩
    · cases hl : alLookup d piexif.ImageIFD.Model with
      | none => exact ⟨.vstr [], by simp [get_camera_model, h0, hl]⟩
      | some v => exact ⟨v, by simp [get_camera_model, h0, hl]⟩
    · cases hl : alLookup d piexif.ImageIFD.ImageDescription with
      | none => exact ⟨.vstr [], by simp [get_description, h0, hl]⟩
      | some v => exact ⟨v, by simp [get_description, h0, hl]⟩
    · cases hl : alLookup d piexif.ImageIFD.Copyright with
      | none => exact ⟨.vstr [], by simp [get_copyright, h0, hl]⟩
      | some v => exact ⟨v, by simp [get_copyright, h0, hl]⟩
    · intro hl
      simp [get_camera_maker, h0, hl]
    · intro hl
      simp [get_camera_model, h0, hl]
    · intro hl
      simp [get_description, h0, hl]
    · intro hl
      simp [get_copyright, h0, hl]
    · intro hl
      simp [get_keywords, h0, hl]
    · intro bs s hl hdec
      refine ⟨splitOnChar 0x3B (takeUntilNul s), ?_⟩
      simp only [get_keywords, h0, hl]
      rw [show pyBytesOf (.vbytes bs) = .ok bs from rfl, ok_bind, hdec]
    · have hset : setTags m.metadata "0th"
          [(piexif.ImageIFD.XPKeywords, .vbytes (pyEncodeUtf16 (joinWithChar 0x3B [])))] =
          .ok (alInsert m.metadata "0th" (.ifd (alInsert d piexif.ImageIFD.XPKeywords
            (.vbytes (pyEncodeUtf16 (joinWithChar 0x3B [])))))) :=
        (setTags_ok_iff _ _ _ _).mpr ⟨d, h0, rfl⟩
      refine ⟨{ m with metadata := alInsert m.metadata "0th" (.ifd (alInsert d
        piexif.ImageIFD.XPKeywords (.vbytes (pyEncodeUtf16 (joinWithChar 0x3B []))))) },
        ?_, ?_⟩
      · show (setTags m.metadata "0th"
          [(piexif.ImageIFD.XPKeywords, .vbytes (pyEncodeUtf16 (joinWithChar 0x3B [])))]) >>=
            _ = _
        rw [hset, ok_bind]
      · have hl1 := alLookup_alInsert_self m.metadata "0th" (MetaVal.ifd (alInsert d
          piexif.ImageIFD.XPKeywords (.vbytes (pyEncodeUtf16 (joinWithChar 0x3B [])))))
        have hl2 := alLookup_alInsert_self d piexif.ImageIFD.XPKeywords
          (PyVal.vbytes (pyEncodeUtf16 (joinWithChar 0x3B [])))
        simp only [get_keywords, hl1, hl2]
        rfl

/-- Witness for C10: the empty-state defaults. -/
theorem c10_getters_defaults_witness :
    get_keywords ⟨[], none, []⟩ = .ok [] ∧
    get_camera_maker ⟨[], none, []⟩ = .ok (.vstr []) :=
  ⟨((c10_getters_defaults ⟨[], none, []⟩).1 rfl).1,
    ((c10_getters_defaults ⟨[], none, []⟩).1 rfl).2.1⟩

/-- C10 counterexample to the claim as stated: the getters can raise.
A one-byte (truncated) `XPKeywords` value has no UTF-16 decoding, so
`bytes.decode("utf-16")` raises `UnicodeDecodeError` (a `ValueError`)
inside `get_keywords`, which no getter catches; and when the `0th`
key is bound to a non-dict value, the membership test
`piexif.ImageIFD.Make in self.metadata['0th']` of `get_camera_maker`
raises as well. -/
theorem c10_getters_defaults_counterexample :
    get_keywords ⟨[("0th", .ifd [(piexif.ImageIFD.XPKeywords, .vbytes [0])])],
      none, []⟩ = .error .valueError ∧
    get_camera_maker ⟨[("0th", .raw (.vint 3))], none, []⟩ = .error .typeError :=
  ⟨rfl, rfl⟩

theorem deg2dms_zone_one :
    deg2dms_zone 1 (chars "N") (chars "S") = (1, 0, 0, chars "N") := by
  unfold deg2dms_zone
  norm_num

theorem deg2dms_zone_zero :
    deg2dms_zone 0 (chars "E") (chars "W") = (0, 0, 0, chars "E") := by
  unfold deg2dms_zone
  norm_num

/-- C1: evaluation of the GPS round-trip at latitude 1, longitude 0,
altitude 0, mean sea level.  `set_gps_data` stores the hemisphere
references as Python `str` values (`'N'`, `'E'`) while `get_gps_data`
compares them with `bytes` (`b'N'`, `b'E'`), so the positive branch of
the conversion is never taken and the positive latitude comes back
negated: the reading is `(-1, 0, 0, True)` instead of the claim's
`(1, 0, 0, True)`. -/
theorem c1_gps_roundtrip_sign_lost :
    ∃ m2, set_gps_data ⟨[("GPS", .ifd [])], none, []⟩ 1 0 0 true = .ok m2 ∧
      get_gps_data m2 = .ok (-1, 0, 0, true) ∧
      ((-1 : ℚ), (0 : ℚ), (0 : ℚ), true) ≠ ((1 : ℚ), (0 : ℚ), (0 : ℚ), true) := by
  have hlat : ((deg2dms_zone 1 (chars "N") (chars "S")).2.2.1 * 100).den = 1 := by
    rw [deg2dms_zone_one]
    norm_num
  have hlon : ((deg2dms_zone 0 (chars "E") (chars "W")).2.2.1 * 100).den = 1 := by
    rw [deg2dms_zone_zero]
    norm_num
  have halt : ((0 : ℚ) * 100).den = 1 := by norm_num
  obtain ⟨m2, hset, hget⟩ :=
    set_get_gps_data ⟨[("GPS", .ifd [])], none, []⟩ [] 1 0 0 true rfl hlat hlon halt
  have hvals : ((-|(1 : ℚ)|, -|(0 : ℚ)|, (0 : ℚ), true) :
      ℚ × ℚ × ℚ × Bool) = (-1, 0, 0, true) := by norm_num
  rw [hvals] at hget
  exact ⟨m2, hset, hget, by norm_num⟩
